import Mathlib

/-!
Verification of the create-fself tool (OpenOrbis/create-fself).

This file shallowly embeds the parts of the Go source that the claims under
scrutiny are about: the fSELF entry-descriptor construction and signature slot
(pkg/fself/FSELF.go), the OELF program-header rewrite and its sort
(GenerateProgramHeaders and getProgramHeaderPriority), and the DynlibData
sub-table writers (writeNIDTable, writeSymbolTable, writeRelocationTable,
buildNIDEntry, calculateNID).

Conventions of the embedding:
* Go machine integers are modelled as Nat with explicit reductions modulo
  2 ^ 64 or 2 ^ 32 (or explicit masks) at the operations where the Go code can
  overflow or truncate.
* Go byte slices and Go strings used as byte containers are List Nat
  (each element a byte value).
* Fallible Go code is modelled with Option or with the GoRes type below;
  a Go runtime panic (nil dereference, out-of-range index or slice) is the
  GoRes.crash outcome or Option.none, and a returned Go error is GoRes.goErr
  with the formatted message.
* External deterministic library functions with bit-exact published
  semantics (encoding/hex, encoding/base64, strings.Split, strings.Replace)
  are implemented here following those semantics.  SHA-1 (crypto/sha1) is
  kept abstract: every statement that involves it is parameterised over the
  hash function, constrained only by its output length of 20 bytes.
-/

namespace CreateFself

/-- 2 ^ 64, the modulus of Go uint64 arithmetic. -/
def MOD64 : Nat := 18446744073709551616

/-- 2 ^ 32, the modulus of Go uint32 arithmetic. -/
def MOD32 : Nat := 4294967296

/-- Go uint64 addition (wraps modulo 2 ^ 64). -/
def wadd (a b : Nat) : Nat := (a + b) % MOD64

/-- Go uint64 subtraction (wraps modulo 2 ^ 64). -/
def wsub (a b : Nat) : Nat := (a % MOD64 + (MOD64 - b % MOD64)) % MOD64

/-- Outcome of running a piece of Go code: a normal result, a returned Go
error carrying the formatted message, or a runtime panic. -/
inductive GoRes (A : Type) where
  | ok (value : A)
  | goErr (msg : String)
  | crash
deriving Repr, DecidableEq

/-- Map a function over the ok outcome of a GoRes. -/
def GoRes.map {A B : Type} (f : A → B) : GoRes A → GoRes B
  | .ok v => .ok (f v)
  | .goErr m => .goErr m
  | .crash => .crash

/-- Little-endian byte serialisation of a uint64 value
(binary.Write with binary.LittleEndian on a uint64). -/
def le64 (n : Nat) : List Nat :=
  [n % 256, n / 256 % 256, n / 65536 % 256, n / 16777216 % 256,
   n / 4294967296 % 256, n / 1099511627776 % 256,
   n / 281474976710656 % 256, n / 72057594037927936 % 256]

/-- Value of a hexadecimal digit character, none for a non-digit
(encoding/hex fromHexChar). -/
def hexDigit (c : Char) : Option Nat :=
  if ('0' ≤ c ∧ c ≤ '9') then some (c.toNat - '0'.toNat)
  else if ('a' ≤ c ∧ c ≤ 'f') then some (c.toNat - 'a'.toNat + 10)
  else if ('A' ≤ c ∧ c ≤ 'F') then some (c.toNat - 'A'.toNat + 10)
  else none

/-- Core of Go's hex.Decode over a zero-initialised destination buffer of
DecodedLen(src) = len(src)/2 bytes: successive digit pairs are decoded until
the first pair containing a non-digit (or a trailing lone character); the
error is returned to the caller and every byte not written stays zero.
create-fself discards the error, so the zeros are what the caller sees. -/
def goHexDecodeCore : List Char → List Nat
  | p :: q :: rest =>
    match hexDigit p, hexDigit q with
    | some a, some b => (a * 16 + b) :: goHexDecodeCore rest
    | _, _ => List.replicate ((p :: q :: rest).length / 2) 0
  | _ => []

/-- Go hex.Decode of a string into a fresh DecodedLen-sized buffer, with the
error discarded (the create-fself call sites all discard it). -/
def goHexDecode (s : String) : List Nat := goHexDecodeCore s.data

/-- True when the character list is a run of hexadecimal digits. -/
def allHexDigits (cs : List Char) : Bool := cs.all (fun c => (hexDigit c).isSome)

----------------------------------------------------------------------------
-- fSELF entry descriptors (pkg/fself/FSELF.go, createSelfEntries)
----------------------------------------------------------------------------

/-- A 64-bit ELF program header (elf.Prog / elf.Prog64); field values are the
numeric values of the Go fields. -/
structure ProgHeader where
  ptype : Nat
  flags : Nat
  off : Nat
  vaddr : Nat
  paddr : Nat
  filesz : Nat
  memsz : Nat
  palign : Nat
deriving Repr, DecidableEq

/-- Standard ELF program-header type and flag constants (debug/elf). -/
def PT_LOAD : Nat := 1
def PT_DYNAMIC : Nat := 2
def PT_INTERP : Nat := 3
def PT_TLS : Nat := 7
def PT_GNU_EH_FRAME : Nat := 1685382480
def PT_GNU_STACK : Nat := 1685382481
def PT_GNU_RELRO : Nat := 1685382482

/-- Modelled from the spec: the Orbis-specific program-header type constants
live in a constants file that is not part of src/; the spec names the types
without numeric values.  The well-known Orbis values are used; no claim below
depends on anything but their being distinct from each other and from the
standard ELF types. -/
def PT_SCE_DYNLIBDATA : Nat := 1627389952
def PT_SCE_PROC_PARAM : Nat := 1627389953
def PT_SCE_MODULE_PARAM : Nat := 1627389954
def PT_SCE_RELRO : Nat := 1627389968

def PF_X : Nat := 1
def PF_W : Nat := 2
def PF_R : Nat := 4

/-- ilog2 from FSELF.go: the length of the binary representation of the value
minus one, i.e. the floor of log2 for a positive value. -/
def ilog2 (v : Nat) : Nat := Nat.log2 v

/-- Whether a program header is a signed segment: type LOAD, SCE_RELRO or
SCE_DYNLIBDATA (the filter in createSelfEntries and CreateFSELF). -/
def isSignedSegment (p : ProgHeader) : Bool :=
  p.ptype == PT_LOAD || p.ptype == PT_SCE_RELRO || p.ptype == PT_SCE_DYNLIBDATA

/-- Modelled from the spec: the SELF_ENTRY_PROPERTY_BIT_* constants are in a
constants file absent from src/, and the spec declines to give their numeric
values.  The descriptor property word is therefore modelled as a record of
the field values the code feeds into setProperty, each masked exactly as the
code masks it (1-bit flags, 4-bit block size, 16-bit segment index). -/
structure SelfEntryProps where
  signed : Nat
  hasDigests : Nat
  hasBlocks : Nat
  blockSize : Nat
  segmentIndex : Nat
deriving Repr, DecidableEq

/-- The meta entry created for a signed segment: signed, has digests, and a
segment-index field of entryIndex + 1 masked to 16 bits. -/
def metaEntryProps (entryIndex : Nat) : SelfEntryProps :=
  { signed := 1 &&& 1, hasDigests := 1 &&& 1, hasBlocks := 0, blockSize := 0,
    segmentIndex := (entryIndex + 1) &&& 65535 }

/-- The data entry created for a signed segment: signed, has blocks, block
size field ilog2(BLOCK_SIZE) - 12 masked to 4 bits, and a segment-index field
of the program-header index masked to 16 bits. -/
def dataEntryProps (blockSizeConst : Nat) (i : Nat) : SelfEntryProps :=
  { signed := 1 &&& 1, hasDigests := 0, hasBlocks := 1 &&& 1,
    blockSize := (ilog2 blockSizeConst - 12) &&& 15,
    segmentIndex := i &&& 65535 }

/-- Loop body of createSelfEntries: i is the range index over all program
headers, entryIndex counts entries already created (two per signed segment). -/
def createSelfEntriesGo (blockSizeConst : Nat) :
    List ProgHeader → Nat → Nat → List SelfEntryProps
  | [], _, _ => []
  | p :: rest, i, entryIndex =>
    if isSignedSegment p then
      metaEntryProps entryIndex :: dataEntryProps blockSizeConst i ::
        createSelfEntriesGo blockSizeConst rest (i + 1) (entryIndex + 2)
    else
      createSelfEntriesGo blockSizeConst rest (i + 1) entryIndex

/-- createSelfEntries from FSELF.go: the list of entry descriptors created for
a program-header table (property words only; offsets and sizes are filled in
later and are not at issue here). -/
def createSelfEntries (blockSizeConst : Nat) (progs : List ProgHeader) :
    List SelfEntryProps :=
  createSelfEntriesGo blockSizeConst progs 0 0

/-- Enumeration of the signed segments of a program-header table: the list of
(ordinal among signed segments, program-header index) pairs, starting the two
counters at k and i. -/
def signedEnum : List ProgHeader → Nat → Nat → List (Nat × Nat)
  | [], _, _ => []
  | p :: rest, i, k =>
    if isSignedSegment p then (k, i) :: signedEnum rest (i + 1) (k + 1)
    else signedEnum rest (i + 1) k

/-- The pair of descriptors belonging to the k-th signed segment, which covers
program-header index i. -/
def entryPairFor (blockSizeConst : Nat) (ki : Nat × Nat) : List SelfEntryProps :=
  [metaEntryProps (2 * ki.1), dataEntryProps blockSizeConst ki.2]

----------------------------------------------------------------------------
-- fSELF signature slot (pkg/fself/FSELF.go, createSignature / CreateFSELF)
----------------------------------------------------------------------------

/-- Modelled from the spec: SELF_SIGNATURE_SIZE is in the absent constants
file; the spec fixes the signature slot at 0x100 bytes. -/
def SELF_SIGNATURE_SIZE : Nat := 256

/-- writePaddingBytes from Helpers.go: appends -size & (align-1) zero bytes,
i.e. pads the buffer length up to the next multiple of the alignment. -/
def paddingLen (size a : Nat) : Nat := (a - size % a) % a

/-- createSignature from FSELF.go.  The authInfo string is hex-decoded into a
DecodedLen buffer with the error discarded; the first 8 bytes of the result
are the buffer length as little-endian uint64, the next 8 the paid as
little-endian uint64, then the buffer from its 9th byte on, padded with zeros
to a multiple of 0x100.  The slice expression authInfoBytes[8:] panics when
the buffer is shorter than 8 bytes, which is the none outcome. -/
def createSignature (authInfo : String) (paid : Int) : Option (List Nat) :=
  let authInfoBytes := goHexDecode authInfo
  if authInfoBytes.length < 8 then none
  else
    let body := le64 authInfoBytes.length ++ le64 (paid % (18446744073709551616 : Int)).toNat
      ++ authInfoBytes.drop 8
    some (body ++ List.replicate (paddingLen body.length 256) 0)

/-- The signature slot as CreateFSELF computes it: 0x100 zero bytes when no
auth-info is given, otherwise the value of createSignature. -/
def fselfSignature (authInfo : String) (paid : Int) : Option (List Nat) :=
  if authInfo = ("") then some (List.replicate SELF_SIGNATURE_SIZE 0)
  else createSignature authInfo paid

/-- Modelled from the spec, for comparison with the code: the signature slot
claim C8 describes.  Bytes 0..8 hold the decoded length, bytes 8..16 the paid,
then the decoded auth-info from its 9th byte, zero-padded up to 0x100 bytes
total. -/
def claimC8Slot (authInfo : String) (paid : Int) : List Nat :=
  let bytes := goHexDecode authInfo
  let body := le64 bytes.length ++ le64 (paid % (18446744073709551616 : Int)).toNat
    ++ bytes.drop 8
  body ++ List.replicate (256 - body.length) 0

----------------------------------------------------------------------------
-- OELF program-header rewrite (GenerateProgramHeaders and its sort)
----------------------------------------------------------------------------

/-- align from the oelf package: (val + (align-1)) & ^(align-1) in uint64
arithmetic. -/
def goAlign (v a : Nat) : Nat := ((v + (a - 1)) % MOD64) &&& (MOD64 - a)

/-- A section header as GenerateProgramHeaders consumes it: file offset,
virtual address and size (elf.Section fields Offset, Addr, Size). -/
structure GoSection where
  offset : Nat
  addr : Nat
  size : Nat
deriving Repr, DecidableEq

/-- Input state of GenerateProgramHeaders: whether a library is being built,
the input program headers, the sections the function looks up by name (none
models a nil *elf.Section), and the offset/size globals that
GenerateDynlibData has published. -/
structure GPHInput where
  isLibrary : Bool
  progs : List ProgHeader
  textSec : Option GoSection
  relroSec : Option GoSection
  dataSec : Option GoSection
  bssSec : Option GoSection
  procParamSec : Option GoSection
  moduleParamSec : Option GoSection
  offsetOfDynamic : Nat
  sizeOfDynamic : Nat
  offsetOfDynlibData : Nat
  sizeOfDynlibData : Nat
deriving Repr, DecidableEq

/-- Modelled from the spec: the body of OrbisElf.getProgramHeader lives in a
utility file absent from src/; its documentation (part_000) says it searches
the program-header table for the given type and flags and returns that
header, or nil when none matches. -/
def getProgramHeader (t f : Nat) (progs : List ProgHeader) : Option ProgHeader :=
  progs.find? (fun p => p.ptype == t && p.flags == f)

/-- First pass of GenerateProgramHeaders over one input header, with g the
PT_GNU_RELRO header found up front: read-only PT_LOAD is dropped; the PT_LOAD
sharing the relro offset is shrunk from the front by the aligned relro memory
size when larger than it, otherwise dropped; PT_GNU_RELRO is dropped when no
.data.rel.ro section exists; PT_GNU_STACK is dropped; everything else is kept
unchanged.  none models the Go continue. -/
def pass1Step (g : ProgHeader) (relroAlignedMemsz : Nat) (relroSecPresent : Bool)
    (p : ProgHeader) : Option ProgHeader :=
  if p.ptype == PT_LOAD && p.flags == PF_R then none
  else if p.ptype == PT_LOAD && p.off == g.off then
    if decide (relroAlignedMemsz < p.memsz) then
      some { p with off := wadd p.off relroAlignedMemsz,
                    vaddr := wadd p.vaddr relroAlignedMemsz,
                    paddr := 0,
                    filesz := if decide (p.filesz < relroAlignedMemsz) then 0
                              else p.filesz - relroAlignedMemsz,
                    memsz := wsub p.memsz relroAlignedMemsz }
    else none
  else if p.ptype == PT_GNU_RELRO && !relroSecPresent then none
  else if p.ptype == PT_GNU_STACK then none
  else some p

/-- Second pass of GenerateProgramHeaders over one kept header: PT_DYNAMIC is
repointed at the new dynamic table, PT_GNU_RELRO becomes SCE_RELRO expanded to
abut the proc-param section, and PT_LOAD headers are realigned and resized.
none models a nil-section dereference panic. -/
def pass2Step (relroSec dataSec bssSec procParam : Option GoSection)
    (offsetOfDynamic sizeOfDynamic : Nat) (p : ProgHeader) : Option ProgHeader :=
  let p := if p.ptype == PT_DYNAMIC then
      { p with off := offsetOfDynamic, vaddr := offsetOfDynamic,
               paddr := offsetOfDynamic, filesz := sizeOfDynamic,
               memsz := sizeOfDynamic }
    else p
  if p.ptype == PT_GNU_RELRO then
    match procParam with
    | none => none
    | some pp =>
      let expanded := wsub pp.offset p.off
      some { p with ptype := PT_SCE_RELRO, filesz := expanded, memsz := expanded,
                    palign := 16384 }
  else if p.ptype == PT_LOAD then
    let p := if p.palign ≠ 16384 then { p with palign := 16384 } else p
    if p.flags == (PF_R ||| PF_X) then
      match relroSec with
      | some r =>
        let expanded := wsub r.offset p.off
        some { p with filesz := expanded, memsz := expanded }
      | none => some p
    else if p.flags == (PF_R ||| PF_W) then
      match dataSec, procParam with
      | some d, some pp =>
        let dataSize := wadd (wsub d.offset pp.offset) d.size
        let dataMemSize := wadd (wsub d.addr pp.addr) d.size
        let dataMemSize := match bssSec with
          | some b => wadd dataMemSize (wadd (wsub b.addr (wadd d.addr d.size)) b.size)
          | none => dataMemSize
        some { p with off := pp.offset, vaddr := pp.addr, paddr := pp.addr,
                      filesz := dataSize, memsz := dataMemSize }
      | _, _ => none
    else some p
  else some p

/-- The synthesized SCE_PROC_PARAM / SCE_MODULE_PARAM header
(generateSceProcParamHeader). -/
def sceProcParamHeader (isLibrary : Bool) (pp : GoSection) : ProgHeader :=
  { ptype := if isLibrary then PT_SCE_MODULE_PARAM else PT_SCE_PROC_PARAM,
    flags := PF_R, vaddr := pp.addr, paddr := pp.addr, off := pp.offset,
    filesz := pp.size, memsz := pp.size, palign := 8 }

/-- The synthesized SCE_DYNLIBDATA header (generateSceDynlibDataHeader). -/
def sceDynlibDataHeader (offset size : Nat) : ProgHeader :=
  { ptype := PT_SCE_DYNLIBDATA, flags := PF_R, vaddr := 0, paddr := 0,
    off := offset, filesz := size, memsz := 0, palign := 16 }

/-- The synthesized PT_INTERP header (generateInterpreterHeader). -/
def interpreterHeader (textOffset : Nat) : ProgHeader :=
  { ptype := PT_INTERP, flags := PF_R, vaddr := 0, paddr := 0,
    off := textOffset, filesz := 21, memsz := 21, palign := 1 }

/-- GenerateProgramHeaders up to (but excluding) the final sort.Sort call.
none models a Go runtime panic: the unconditional gnuRelroSegment.Memsz
dereference when no PT_GNU_RELRO (PF_R) header exists, or a nil-section
dereference further down. -/
def GenerateProgramHeadersUnsorted (inp : GPHInput) : Option (List ProgHeader) :=
  let procParamSection := if inp.isLibrary then inp.moduleParamSec else inp.procParamSec
  match getProgramHeader PT_GNU_RELRO PF_R inp.progs with
  | none => none
  | some g =>
    let relroAligned := goAlign g.memsz 16384
    let kept := inp.progs.filterMap (pass1Step g relroAligned inp.relroSec.isSome)
    match kept.mapM (pass2Step inp.relroSec inp.dataSec inp.bssSec procParamSection
        inp.offsetOfDynamic inp.sizeOfDynamic) with
    | none => none
    | some hdrs =>
      match procParamSection with
      | none => none
      | some pp =>
        let hdrs := hdrs ++ [sceProcParamHeader inp.isLibrary pp,
                             sceDynlibDataHeader inp.offsetOfDynlibData inp.sizeOfDynlibData]
        if inp.isLibrary then some hdrs
        else
          match inp.textSec with
          | none => none
          | some t => some (hdrs ++ [interpreterHeader t.offset])

/-- GenerateProgramHeaders: the unsorted table followed by the sort.Sort call,
with the sorting routine (Go standard-library code) passed in explicitly. -/
def GenerateProgramHeaders (sortFn : List ProgHeader → List ProgHeader)
    (inp : GPHInput) : Option (List ProgHeader) :=
  (GenerateProgramHeadersUnsorted inp).map sortFn

/-- math.MaxInt32, the priority forced onto unknown program-header types. -/
def maxInt32 : Nat := 2147483647

/-- The priority mapping table progHeaderTypeOrder. -/
def progHeaderTypeOrder : List Nat :=
  [PT_LOAD, PT_SCE_RELRO, PT_LOAD, PT_SCE_PROC_PARAM, PT_SCE_MODULE_PARAM,
   PT_DYNAMIC, PT_INTERP, PT_TLS, PT_GNU_EH_FRAME, PT_SCE_DYNLIBDATA]

/-- Loop of getProgramHeaderPriority: scan the order table; the first matching
slot wins, except that a read-write PT_LOAD skips the first PT_LOAD slot;
unknown types fall through to math.MaxInt32. -/
def priorityGo : List Nat → Nat → Nat → Nat → Nat
  | [], _, _, _ => maxInt32
  | v :: rest, i, ptype, flags =>
    if v == ptype then
      if v == PT_LOAD && i == 0 && flags == (PF_R ||| PF_W) then
        priorityGo rest (i + 1) ptype flags
      else i
    else priorityGo rest (i + 1) ptype flags

/-- getProgramHeaderPriority from the oelf package. -/
def getProgramHeaderPriority (order : List Nat) (ptype flags : Nat) : Nat :=
  priorityGo order 0 ptype flags

/-- The Less method of programHeaderList: strict comparison of priorities. -/
def phLess (p q : ProgHeader) : Bool :=
  decide (getProgramHeaderPriority progHeaderTypeOrder p.ptype p.flags <
          getProgramHeaderPriority progHeaderTypeOrder q.ptype q.flags)

/-- Worker for the gap-6 ShellSort pass of Go 1.17 sort.quickSort on a range
of length at most 12.  The pass visits i = 6, 7, ... and swaps positions i and
i-6 when data[i] is strictly less than data[i-6]; after step i, position i-6
is never touched again.  The window argument holds the current values at
positions i-6 .. i-1, rest the values from position i on, and done (reversed)
the finalized values at positions below i-6. -/
def shellPass6Go (less : α → α → Bool) : List α → List α → List α → List α
  | window, [], done => done.reverse ++ window
  | window, x :: rest, done =>
    match window with
    | [] => done.reverse ++ x :: rest
    | w :: ws =>
      if less x w then shellPass6Go less (ws ++ [w]) rest (x :: done)
      else shellPass6Go less (ws ++ [x]) rest (w :: done)

/-- The gap-6 ShellSort pass of Go 1.17 sort.quickSort, run on a whole list.
For lists of length at most 6 the loop body never runs. -/
def shellPass6 (less : α → α → Bool) (l : List α) : List α :=
  shellPass6Go less (l.take 6) (l.drop 6) []

/-- One step of Go's insertionSort: bubbling data[i] down through the sorted
prefix swaps it past every element it is strictly less than, which places it
after the last prefix element it is not strictly less than; scanning the
sorted prefix from the left, that is: insert before the first element b with
less x b. -/
def goOrderedInsert (less : α → α → Bool) (x : α) : List α → List α
  | [] => [x]
  | b :: l => if less x b then x :: b :: l else b :: goOrderedInsert less x l

/-- insertionSort from Go's sort package: for i = 1, 2, ... bubble data[i]
into the sorted prefix data[0..i). -/
def goInsertionSort (less : α → α → Bool) (l : List α) : List α :=
  l.foldl (fun acc x => goOrderedInsert less x acc) []

/-- Go 1.17 sort.Sort restricted to slices of length at most 12 (the
create-fself program-header tables): quickSort's partition loop never runs,
leaving exactly the gap-6 ShellSort pass followed by insertionSort.  Go
documents sort.Sort as not guaranteed to be stable, and this path indeed is
not: the gap-6 pass can move an element past equal elements. -/
def goSortLe12 (less : α → α → Bool) (l : List α) : List α :=
  goInsertionSort less (shellPass6 less l)

----------------------------------------------------------------------------
-- Go string helpers (strings.Split, strings.Replace) used by the NID code
----------------------------------------------------------------------------

/-- Worker for strings.Split with a non-empty separator: scan left to right,
cutting at each non-overlapping leftmost occurrence of the separator.  The
fuel is an upper bound on the scan length (the wrapper passes length + 1, so
the fuel never runs out); acc holds the current field reversed. -/
def goSplitF (sep : List Char) : Nat → List Char → List Char → List (List Char)
  | _, [], acc => [acc.reverse]
  | 0, rest, acc => [acc.reverse ++ rest]
  | fuel + 1, c :: rest, acc =>
    if sep.isPrefixOf (c :: rest) then
      acc.reverse :: goSplitF sep fuel (rest.drop (sep.length - 1)) []
    else goSplitF sep fuel rest (c :: acc)

/-- strings.Split.  For an empty separator Go splits after each rune; the
create-fself call site always passes a non-empty separator. -/
def goSplit (s sep : String) : List String :=
  match sep.data with
  | [] => s.data.map (fun c => String.mk [c])
  | _ => (goSplitF sep.data (s.data.length + 1) s.data []).map String.mk

/-- strings.HasPrefix: the pattern's characters head the string's. -/
def goHasPre (s pat : String) : Bool := pat.data.isPrefixOf s.data

/-- Worker for strings.Replace with n = -1 (replace every non-overlapping
leftmost occurrence) and a non-empty pattern; fuelled like goSplitF. -/
def goReplaceF (old new : List Char) : Nat → List Char → List Char
  | _, [] => []
  | 0, rest => rest
  | fuel + 1, c :: rest =>
    if old.isPrefixOf (c :: rest) then
      new ++ goReplaceF old new fuel (rest.drop (old.length - 1))
    else c :: goReplaceF old new fuel rest

/-- strings.Replace(s, old, new, -1) for a non-empty old. -/
def goReplAll (s old new : String) : String :=
  match old.data with
  | [] => s
  | _ => String.mk (goReplaceF old.data new.data (s.data.length + 1) s.data)

/-- Everything after the first occurrence of a non-empty pattern, or the empty
string when the pattern does not occur (used only by the spec-side model of
claim C4, whose wording is the literal after the marker). -/
def afterFirstF (pat : List Char) : Nat → List Char → List Char
  | _, [] => []
  | 0, _ => []
  | fuel + 1, c :: rest =>
    if pat.isPrefixOf (c :: rest) then rest.drop (pat.length - 1)
    else afterFirstF pat fuel rest

/-- String wrapper of afterFirstF. -/
def afterFirst (s pat : String) : String :=
  String.mk (afterFirstF pat.data (s.data.length + 1) s.data)

----------------------------------------------------------------------------
-- NID construction (calculateNID / buildNIDEntry)
----------------------------------------------------------------------------

/-- The hard-coded suffix appended to symbol names before hashing. -/
def nidSuffixKey : String := "518D64A635DED8C1E6B039B1C3E55230"

/-- The 64-character index encoding table for library and module ids. -/
def indexEncodingTable : String :=
  "ABCDEFGHIJKLMNOPQRSTUVWXYZabcdefghijklmnopqrstuvwxyz0123456789+-"

/-- The bytes of a Go string: UTF-8 encoding of its characters. -/
def strBytes (s : String) : List Nat :=
  s.data.flatMap (fun c => (String.utf8EncodeChar c).map (fun b => b.toNat))

/-- The standard base64 alphabet (encoding/base64 StdEncoding). -/
def b64StdAlphabet : List Char :=
  "ABCDEFGHIJKLMNOPQRSTUVWXYZabcdefghijklmnopqrstuvwxyz0123456789+/".data

/-- Character of the standard base64 alphabet at a 6-bit index. -/
def b64Char (n : Nat) : Char := b64StdAlphabet.getD n 'A'

/-- Standard base64 encoding of a byte list, three bytes to four characters,
with '=' padding on a final partial group (RFC 4648, as implemented by Go's
encoding/base64 StdEncoding). -/
def base64Chunks : List Nat → List Char
  | [] => []
  | [b0] => [b64Char (b0 / 4), b64Char (b0 % 4 * 16), '=', '=']
  | [b0, b1] => [b64Char (b0 / 4), b64Char (b0 % 4 * 16 + b1 / 16),
                 b64Char (b1 % 16 * 4), '=']
  | b0 :: b1 :: b2 :: rest =>
    b64Char (b0 / 4) :: b64Char (b0 % 4 * 16 + b1 / 16) ::
    b64Char (b1 % 16 * 4 + b2 / 64) :: b64Char (b2 % 64) :: base64Chunks rest

/-- base64.StdEncoding.EncodeToString. -/
def base64Encode (bytes : List Nat) : String := String.mk (base64Chunks bytes)

/-- calculateNID, parameterised over the SHA-1 function: hash the symbol-name
bytes followed by the hex-decoded suffix key; read the first 8 digest bytes as
a big-endian uint64 and write it back little-endian (a byte reversal); base64
the result; drop the final character (the one '=' pad of an 8-byte input);
replace every '/' with '-'. -/
def calculateNID (sha1 : List Nat → List Nat) (symbolName : String) : String :=
  let suffix := goHexDecode nidSuffixKey
  let hash := sha1 (strBytes symbolName ++ suffix)
  let hashBytes := (hash.take 8).reverse
  let nidHash := base64Encode hashBytes
  let nidHash := String.mk (nidHash.data.take (nidHash.data.length - 1))
  goReplAll nidHash ("/") ("-")

/-- buildNIDEntry, parameterised over the SHA-1 function.  A name starting
with the marker bypasses hashing: element 1 of strings.Split on the inner
marker is used, with the plus and minus escapes replaced.  The result is
hash, '#', table character at the library id, '#', table character at the
module id, and a NUL.  Indexing the 64-character table with an id of 64 or
more is a Go panic, modelled as none. -/
def buildNIDEntry (sha1 : List Nat → List Nat) (symbolName : String)
    (libraryId moduleId : Nat) : Option String :=
  let nid :=
    if goHasPre symbolName ("__PS4_NID_") then
      let raw := (goSplit symbolName ("_NID_")).getD 1 ("")
      goReplAll (goReplAll raw ("_plus") ("+")) ("_minus") ("-")
    else calculateNID sha1 symbolName
  if libraryId < 64 ∧ moduleId < 64 then
    some (nid ++ "#" ++ String.mk [indexEncodingTable.data.getD libraryId 'A'] ++ "#"
              ++ String.mk [indexEncodingTable.data.getD moduleId 'A'] ++ "\x00")
  else none

/-- Modelled from the spec, for comparison with the code: the hash part of the
NID as claim C4 words it, with the trailing '=' padding stripped (rather than
the code's unconditional removal of the final character) and '/' replaced by
'-'. -/
def specNIDHash (sha1 : List Nat → List Nat) (name : String) : String :=
  let digest := sha1 (strBytes name ++ goHexDecode nidSuffixKey)
  let le := (digest.take 8).reverse
  let encoded := base64Encode le
  let stripped := String.mk ((encoded.data.reverse.dropWhile (fun c => c == '=')).reverse)
  goReplAll stripped ("/") ("-")

/-- Modelled from the spec, for comparison with the code: the whole NID entry
as claim C4 words it.  A name beginning with the marker uses the literal after
the (first) inner marker with the plus and minus escapes replaced; any other
name uses the hash; then '#', alphabet character at the library id, '#',
alphabet character at the module id, and a NUL. -/
def specNIDEntry (sha1 : List Nat → List Nat) (name : String)
    (libraryId moduleId : Nat) : String :=
  let hash :=
    if goHasPre name ("__PS4_NID_") then
      goReplAll (goReplAll (afterFirst name ("_NID_")) ("_plus") ("+")) ("_minus") ("-")
    else specNIDHash sha1 name
  hash ++ "#" ++ String.mk [indexEncodingTable.data.getD libraryId 'A'] ++ "#"
       ++ String.mk [indexEncodingTable.data.getD moduleId 'A'] ++ "\x00"

/-- The amended reading of the bypass branch: element 1 of the Go Split, that
is the segment between the first and second occurrence of the inner marker
(the whole remainder when the marker occurs exactly once). -/
def specNIDEntryAmended (sha1 : List Nat → List Nat) (name : String)
    (libraryId moduleId : Nat) : String :=
  let hash :=
    if goHasPre name ("__PS4_NID_") then
      goReplAll (goReplAll ((goSplit name ("_NID_")).getD 1 ("")) ("_plus") ("+"))
        ("_minus") ("-")
    else specNIDHash sha1 name
  hash ++ "#" ++ String.mk [indexEncodingTable.data.getD libraryId 'A'] ++ "#"
       ++ String.mk [indexEncodingTable.data.getD moduleId 'A'] ++ "\x00"

----------------------------------------------------------------------------
-- DynlibData tables: writeNIDTable, writeSymbolTable, writeRelocationTable
----------------------------------------------------------------------------

/-- Standard ELF symbol constants (debug/elf). -/
def SHN_UNDEF : Nat := 0
def STT_SECTION : Nat := 3
def STT_OBJECT : Nat := 1
def STB_GLOBAL : Nat := 1
def STB_WEAK : Nat := 2

/-- An elf.Symbol as the oelf package consumes it. -/
structure GoSym where
  name : String
  info : Nat
  other : Nat
  sectionIdx : Nat
  value : Nat
  size : Nat
deriving Repr, DecidableEq

/-- The all-zero elf.Symbol that getSymbol returns for a missing name. -/
def zeroGoSym : GoSym := { name := "", info := 0, other := 0, sectionIdx := 0,
                           value := 0, size := 0 }

/-- Modelled from the spec: OrbisElf.getSymbol lives in a utility file absent
from src/; its documentation (part_000) says it searches the symbol table for
the given name and returns the matching elf.Symbol, or an empty one when the
symbol does not exist. -/
def getSymbol (syms : List GoSym) (name : String) : GoSym :=
  (syms.find? (fun s => s.name == name)).getD zeroGoSym

/-- The export filter of writeNIDTable and writeSymbolTable: binding
global or weak (Info >> 4 & 0xf) and a nonzero value. -/
def exportedSym (s : GoSym) : Bool :=
  ((s.info / 16) &&& 15 == STB_GLOBAL || (s.info / 16) &&& 15 == STB_WEAK)
    && s.value != 0

/-- OrderedMap.Get over the library-to-module dictionary: first pair with the
given key (keys are unique in the real OrderedMap). -/
def lookupStr (m : List (String × String)) (k : String) : Option String :=
  (m.find? (fun p => p.1 == k)).map (fun p => p.2)

/-- The library-search loop of writeNIDTable: the first dictionary entry
whose symbol list contains the name, together with its position among the
keys. -/
def findLibFor : List (String × List String) → String → Nat → Option (Nat × String)
  | [], _, _ => none
  | (lib, syms) :: rest, symName, i =>
    if syms.contains symName then some (i, lib)
    else findLibFor rest symName (i + 1)

/-- The per-symbol loop of writeNIDTable: undefined dynamic symbols are looked
up in the library dictionary; a symbol found in no library is the missing
library error; the library is mapped to its module (a missing mapping would
be a nil interface conversion, a panic) and the module to its index; the NID
entry is built with the 1-based library and module indices. -/
def writeNIDTableLoop (sha1 : List Nat → List Nat)
    (dict : List (String × List String)) (lmd : List (String × String))
    (modules : List String) : List GoSym → GoRes (List String)
  | [] => .ok []
  | s :: rest =>
    if s.sectionIdx != SHN_UNDEF then
      writeNIDTableLoop sha1 dict lmd modules rest
    else
      match findLibFor dict s.name 0 with
      | none => .goErr ("missing library for symbol (" ++ s.name ++ ")")
      | some (idx, libName) =>
        match lookupStr lmd libName with
        | none => .crash
        | some moduleName =>
          match modules.findIdx? (fun m => m == moduleName) with
          | none => .goErr ("missing module " ++ moduleName ++ " for symbol ("
                            ++ s.name ++ ")")
          | some mIdx =>
            match buildNIDEntry sha1 s.name (1 + idx) (1 + mIdx) with
            | none => .crash
            | some e =>
              (writeNIDTableLoop sha1 dict lmd modules rest).map (fun es => e :: es)

/-- The exported-symbols loop of writeNIDTable (libraries only): one NID entry
per global or weak symbol with a nonzero value, with both ids 0. -/
def writeNIDTableExported (sha1 : List Nat → List Nat) :
    List GoSym → GoRes (List String)
  | [] => .ok []
  | s :: rest =>
    if exportedSym s then
      match buildNIDEntry sha1 s.name 0 0 with
      | none => .crash
      | some e => (writeNIDTableExported sha1 rest).map (fun es => e :: es)
    else writeNIDTableExported sha1 rest

/-- writeNIDTable: the list of NID strings written to the string table, or
the first error.  dynSyms is DynamicSymbols() of the input ELF, staticSyms is
Symbols(), dict the LibrarySymbolDictionary as ordered pairs, lmd the
LibraryModuleDictionary, modules the ModuleList. -/
def writeNIDTable (sha1 : List Nat → List Nat) (dynSyms staticSyms : List GoSym)
    (dict : List (String × List String)) (lmd : List (String × String))
    (modules : List String) (isLib : Bool) : GoRes (List String) :=
  let libcModuleIndex := modules.findIdx? (fun m => m == "libc")
  match writeNIDTableLoop sha1 dict lmd modules dynSyms with
  | .goErr m => .goErr m
  | .crash => .crash
  | .ok entries =>
    let afterLibc : GoRes (List String) :=
      match libcModuleIndex with
      | some li =>
        match buildNIDEntry sha1 ("Need_sceLibc") (1 + li) (1 + li) with
        | none => .crash
        | some e => .ok (entries ++ [e])
      | none => .ok entries
    match afterLibc with
    | .goErr m => .goErr m
    | .crash => .crash
    | .ok entries2 =>
      if isLib then (writeNIDTableExported sha1 staticSyms).map (fun es => entries2 ++ es)
      else .ok entries2

/-- The NID-entry count claim C2 asserts: the sum over undefined dynamic
symbols of the number of dictionary entries whose list contains them, plus
one for libc, plus the exported symbols of a library build. -/
def claimC2Count (dynSyms staticSyms : List GoSym)
    (dict : List (String × List String)) (modules : List String)
    (isLib : Bool) : Nat :=
  (dynSyms.filter (fun s => s.sectionIdx == SHN_UNDEF)).foldl
      (fun acc s => acc + (dict.filter (fun p => p.2.contains s.name)).length) 0
    + (if modules.contains ("libc") then 1 else 0)
    + (if isLib then (staticSyms.filter exportedSym).length else 0)

/-- A symbol-table entry (elf.Sym64); field values are the numeric values of
the Go fields. -/
structure SymEntry where
  name : Nat
  info : Nat
  other : Nat
  shndx : Nat
  value : Nat
  size : Nat
deriving Repr, DecidableEq

/-- The all-zero symbol-table entry. -/
def zeroSymEntry : SymEntry :=
  { name := 0, info := 0, other := 0, shndx := 0, value := 0, size := 0 }

/-- The undefined-dynamic-symbols loop of writeSymbolTable: symbols with a
section index are skipped; a named symbol gets a name field of
offset_of_nid_table + numSymbols * 0x10 (truncated to uint32) and advances
numSymbols; an empty-named symbol produces an all-zero placeholder entry
without advancing numSymbols. -/
def symTabDynEntries (offNid : Nat) : List GoSym → Nat → List SymEntry × Nat
  | [], cnt => ([], cnt)
  | s :: rest, cnt =>
    if s.sectionIdx != SHN_UNDEF then symTabDynEntries offNid rest cnt
    else if s.name != ("") then
      let e := { zeroSymEntry with name := (offNid + cnt * 16) % MOD32, info := s.info }
      let p := symTabDynEntries offNid rest (cnt + 1)
      (e :: p.1, p.2)
    else
      let p := symTabDynEntries offNid rest cnt
      (zeroSymEntry :: p.1, p.2)

/-- The exported-symbols loop of writeSymbolTable (libraries only). -/
def symTabExported (offNid : Nat) : List GoSym → Nat → List SymEntry × Nat
  | [], cnt => ([], cnt)
  | s :: rest, cnt =>
    if exportedSym s then
      let e := { name := (offNid + cnt * 16) % MOD32, info := s.info,
                 other := s.other, value := s.value, size := s.size,
                 shndx := s.sectionIdx % 65536 }
      let p := symTabExported offNid rest (cnt + 1)
      (e :: p.1, p.2)
    else symTabExported offNid rest cnt

/-- The Need_sceLibc step of writeSymbolTable: when libc is among the
dictionary keys, one GLOBAL OBJECT entry at the next advancing slot together
with the recorded _needSceLibcIndex and the advanced count. -/
def symTabLibcPart (offNid cnt : Nat) (dictKeys : List String) :
    List SymEntry × Option Nat × Nat :=
  match dictKeys.findIdx? (fun k => k == "libc") with
  | some _ =>
    ([{ zeroSymEntry with
          name := (offNid + cnt * 16) % MOD32,
          info := STB_GLOBAL * 16 + STT_OBJECT }], some cnt, cnt + 1)
  | none => ([], none, cnt)

/-- writeSymbolTable: the emitted entry list together with the recorded
_needSceLibcIndex (none models -1).  dictKeys is
LibrarySymbolDictionary.Keys(), over which the code looks libc up. -/
def writeSymbolTable (dynSyms staticSyms : List GoSym) (dictKeys : List String)
    (offNid : Nat) (isLib : Bool) : List SymEntry × Option Nat :=
  let e1 := { zeroSymEntry with info := STT_SECTION }
  let dynPart := symTabDynEntries offNid dynSyms 0
  let libcPart := symTabLibcPart offNid dynPart.2 dictKeys
  let expPart : List SymEntry × Nat :=
    if isLib then symTabExported offNid staticSyms libcPart.2.2
    else ([], libcPart.2.2)
  let modulePart : List SymEntry :=
    if isLib then
      [{ zeroSymEntry with
           name := (offNid + expPart.2 * 16) % MOD32,
           info := STB_WEAK * 16 },
       { zeroSymEntry with
           name := (offNid + expPart.2 * 16 + 12) % MOD32,
           info := STB_WEAK * 16 }]
    else []
  (zeroSymEntry :: e1 :: dynPart.1 ++ libcPart.1 ++ expPart.1 ++ modulePart,
   libcPart.2.1)

/-- A relocation entry (elf.Rela64); the addend is kept as its uint64 bit
pattern. -/
structure Rela where
  roff : Nat
  rinfo : Nat
  raddend : Nat
deriving Repr, DecidableEq

/-- Modelled from the spec: R_AMD64_64 is in a constants file absent from
src/; the standard value of the 64-bit absolute relocation type is 1, and no
claim depends on more than it being a fixed constant. -/
def R_AMD64_64 : Nat := 1

/-- Copying a .rela.plt or .rela.dyn entry bumps the symbol index inside the
info field by adding 1 << 32 in uint64 arithmetic. -/
def bumpRela (r : Rela) : Rela := { r with rinfo := wadd r.rinfo 4294967296 }

/-- writeObjectRelaEntry: an R_AMD64_64 entry at the given offset against the
given symbol index, addend 0 (the info field is (symbolIndex << 32) +
R_AMD64_64 in uint64 arithmetic). -/
def objectRelaEntry (offset symbolIndex : Nat) : Rela :=
  { roff := offset, rinfo := (symbolIndex * 4294967296 + R_AMD64_64) % MOD64,
    raddend := 0 }

/-- writeRelocationTable: the bumped .rela.plt entries, the bumped .rela.dyn
entries, then — when _needSceLibcIndex is set — the synthesized entries: for
executables one at value(_sceLibcParam) + 0x48, and in all cases one at the
value of the symbol named _sceLibc (the variable is called sceNeedLibc but
the looked-up name is _sceLibc), both against symbol index
_needSceLibcIndex + 2. -/
def writeRelocationTable (relaPlt relaDyn : List Rela) (needIdx : Option Nat)
    (staticSyms : List GoSym) (isLib : Bool) : List Rela :=
  let buff := relaPlt.map bumpRela ++ relaDyn.map bumpRela
  match needIdx with
  | none => buff
  | some k =>
    let sceNeedLibc := getSymbol staticSyms ("_sceLibc")
    let buff :=
      if !isLib then
        let sceLibcParamSym := getSymbol staticSyms ("_sceLibcParam")
        buff ++ [objectRelaEntry (wadd sceLibcParamSym.value 72) (k + 2)]
      else buff
    buff ++ [objectRelaEntry sceNeedLibc.value (k + 2)]

/-- Modelled from the spec, for comparison with the code: the synthesized
relocation tail as claim C7 words it, referencing the value of a symbol named
_sceNeedLibc. -/
def claimC7Tail (needIdx : Option Nat) (staticSyms : List GoSym) (isLib : Bool) :
    List Rela :=
  match needIdx with
  | none => []
  | some k =>
    (if !isLib then
        [objectRelaEntry (wadd (getSymbol staticSyms ("_sceLibcParam")).value 72) (k + 2)]
      else [])
      ++ [objectRelaEntry (getSymbol staticSyms ("_sceNeedLibc")).value (k + 2)]

/-- The synthesized relocation tail the code actually appends. -/
def codeC7Tail (needIdx : Option Nat) (staticSyms : List GoSym) (isLib : Bool) :
    List Rela :=
  match needIdx with
  | none => []
  | some k =>
    (if !isLib then
        [objectRelaEntry (wadd (getSymbol staticSyms ("_sceLibcParam")).value 72) (k + 2)]
      else [])
      ++ [objectRelaEntry (getSymbol staticSyms ("_sceLibc")).value (k + 2)]

----------------------------------------------------------------------------
-- Statement-level helper definitions and concrete demonstration inputs
----------------------------------------------------------------------------

/-- Whether some dictionary entry's symbol list contains the symbol's name. -/
def symAttributed (dict : List (String × List String)) (s : GoSym) : Bool :=
  dict.any (fun p => p.2.contains s.name)

/-- The name values of k consecutive advancing symbol-table slots starting at
running count cnt: offset_of_nid_table + (cnt + j) * 0x10, truncated to
uint32. -/
def specNameSeq (offNid cnt k : Nat) : List Nat :=
  (List.range k).map (fun j => (offNid + (cnt + j) * 16) % MOD32)

/-- The number of advancing symbol-table slots: undefined dynamic symbols,
the Need_sceLibc slot, and the exported symbols of a library build. -/
def symTabAdvCount (dynSyms staticSyms : List GoSym) (dictKeys : List String)
    (isLib : Bool) : Nat :=
  dynSyms.countP (fun s => s.sectionIdx == SHN_UNDEF)
    + (if dictKeys.contains ("libc") then 1 else 0)
    + (if isLib then staticSyms.countP exportedSym else 0)

/-- A constant stand-in SHA-1 with the correct 20-byte output length, used by
the concrete demonstration inputs (the demonstrations below never depend on
actual digest values). -/
def cSha1 : List Nat → List Nat := fun _ => List.replicate 20 0

/-- A minimal program header with the given type, flags and offset. -/
def demoPH (t f o : Nat) : ProgHeader :=
  { ptype := t, flags := f, off := o, vaddr := 0, paddr := 0, filesz := 0,
    memsz := 0, palign := 8 }

/-- Demonstration program-header table for claim C1: an unsigned PT_DYNAMIC
followed by a signed PT_LOAD, so the signed segment covers header index 1. -/
def c1DemoProgs : List ProgHeader := [demoPH PT_DYNAMIC 4 0, demoPH PT_LOAD 5 0]

/-- A PT_NOTE header (an unrecognized type for the priority table),
distinguishable by its offset. -/
def noteHdr (n : Nat) : ProgHeader :=
  { ptype := 4, flags := 4, off := n, vaddr := 0, paddr := 0, filesz := 0,
    memsz := 0, palign := 1 }

/-- The PT_GNU_RELRO header of the claim C5 demonstration input. -/
def relroHdr : ProgHeader :=
  { ptype := PT_GNU_RELRO, flags := 4, off := 4096, vaddr := 4096,
    paddr := 4096, filesz := 256, memsz := 256, palign := 1 }

/-- Demonstration input for claim C5: a library build whose table reaching the
sort has 9 headers, among them six equal-priority PT_NOTE headers in input
order 1..6. -/
def c5Input : GPHInput :=
  { isLibrary := true,
    progs := [relroHdr, noteHdr 1, noteHdr 2, noteHdr 3, noteHdr 4, noteHdr 5,
              noteHdr 6],
    textSec := none,
    relroSec := some { offset := 4096, addr := 4096, size := 256 },
    dataSec := none, bssSec := none, procParamSec := none,
    moduleParamSec := some { offset := 8192, addr := 8192, size := 64 },
    offsetOfDynamic := 40960, sizeOfDynamic := 512,
    offsetOfDynlibData := 12288, sizeOfDynlibData := 1024 }

/-- Demonstration input for claim C6: a well-formed input whose program-header
table has no PT_GNU_RELRO header at all. -/
def c6Input : GPHInput :=
  { c5Input with progs := [demoPH PT_LOAD 5 0] }

/-- An undefined dynamic symbol with the given name. -/
def undefSym (n : String) : GoSym :=
  { name := n, info := 0, other := 0, sectionIdx := 0, value := 0, size := 0 }

/-- Demonstration dictionary for claim C2: the symbol foo is defined by both
library A and library B. -/
def c2DemoDict : List (String × List String) :=
  [("libkernel", []), ("A", ["foo"]), ("B", ["foo"])]

/-- Library-to-module dictionary of the claim C2 demonstration. -/
def c2DemoLmd : List (String × String) :=
  [("libkernel", "libkernel"), ("A", "A"), ("B", "B")]

/-- Module list of the claim C2 demonstration. -/
def c2DemoModules : List String := ["libkernel", "A", "B"]

/-- Demonstration symbol table for claim C7: _sceLibc and _sceNeedLibc exist
with distinct values. -/
def c7DemoSyms : List GoSym :=
  [{ name := "_sceLibc", info := 0, other := 0, sectionIdx := 1, value := 4096,
     size := 0 },
   { name := "_sceNeedLibc", info := 0, other := 0, sectionIdx := 1,
     value := 8192, size := 0 },
   { name := "_sceLibcParam", info := 0, other := 0, sectionIdx := 1,
     value := 1280, size := 0 }]

/-- Demonstration auth-info for claim C10: 498 hex digits, decoding to 249
bytes, more than fit in a 0x100-byte slot beside the two length fields. -/
def bigHexDemo : String := String.mk (List.replicate 498 '0')

/-- The table of the claim C5 demonstration as it reaches the sort.Sort call:
the value GenerateProgramHeadersUnsorted computes on c5Input. -/
def c5Unsorted : List ProgHeader := (GenerateProgramHeadersUnsorted c5Input).getD []

----------------------------------------------------------------------------
-- Theorems
----------------------------------------------------------------------------

/-- Structure lemma for createSelfEntries: running the loop with entry counter
2k produces, for each signed segment, the pair built from its signed ordinal
and its program-header index. -/
theorem createSelfEntriesGo_eq (bs : Nat) :
    ∀ (progs : List ProgHeader) (i k : Nat),
      createSelfEntriesGo bs progs i (2 * k) =
        (signedEnum progs i k).flatMap (entryPairFor bs) := by
  intro progs
  induction progs with
  | nil => intro i k; simp [createSelfEntriesGo, signedEnum]
  | cons p rest ih =>
    intro i k
    by_cases h : isSignedSegment p
    · have h2 : 2 * k + 2 = 2 * (k + 1) := by ring
      simp only [createSelfEntriesGo, signedEnum, h, if_pos, List.flatMap_cons,
        entryPairFor, h2, ih (i + 1) (k + 1)]
      simp
    · simp only [createSelfEntriesGo, signedEnum, h, if_neg, Bool.false_eq_true,
        ite_false, ih (i + 1) k]

/-- The signed-segment enumeration has one element per signed header. -/
theorem signedEnum_length :
    ∀ (progs : List ProgHeader) (i k : Nat),
      (signedEnum progs i k).length = progs.countP isSignedSegment := by
  intro progs
  induction progs with
  | nil => intro i k; simp [signedEnum]
  | cons p rest ih =>
    intro i k
    by_cases h : isSignedSegment p <;>
      simp [signedEnum, h, List.countP_cons, ih]

/-- Claim C1, amended.  createSelfEntries emits exactly two descriptors per
signed segment (program-header type LOAD, SCE_RELRO or SCE_DYNLIBDATA).  For
the k-th signed segment, covering program-header index i: the meta entry's
16-bit SEGMENT_INDEX field holds 2k + 1 — the index, in the entry table
itself, of the companion data entry — not i + 1; the data entry's
SEGMENT_INDEX field holds i (masked to 16 bits), so decoding the data entry's
field yields the index of the covered program header whenever it fits in 16
bits. -/
theorem C1_entry_descriptors (bs : Nat) (progs : List ProgHeader) :
    createSelfEntries bs progs = (signedEnum progs 0 0).flatMap (entryPairFor bs)
    ∧ (createSelfEntries bs progs).length = 2 * progs.countP isSignedSegment
    ∧ (∀ ki ∈ signedEnum progs 0 0,
        (ki.2 < 65536 → (dataEntryProps bs ki.2).segmentIndex = ki.2)
        ∧ (2 * ki.1 + 1 < 65536 →
            (metaEntryProps (2 * ki.1)).segmentIndex = 2 * ki.1 + 1)) := by
  have hmask : ∀ x : Nat, x &&& 65535 = x % 65536 := by
    intro x
    have := Nat.and_pow_two_sub_one_eq_mod x 16
    norm_num at this
    exact this
  refine ⟨?_, ?_, ?_⟩
  · have := createSelfEntriesGo_eq bs progs 0 0
    simpa [createSelfEntries] using this
  · have h1 := createSelfEntriesGo_eq bs progs 0 0
    have h2 := signedEnum_length progs 0 0
    simp only [createSelfEntries] at *
    rw [show (0 : Nat) = 2 * 0 by rfl] at h1
    rw [h1, List.length_flatMap]
    have : ∀ l : List (Nat × Nat),
        (List.map (List.length ∘ entryPairFor bs) l).sum = 2 * l.length := by
      intro l
      induction l with
      | nil => simp
      | cons a t iht => simp [entryPairFor, iht]; ring
    rw [this, h2]
  · intro ki _
    constructor
    · intro hfit
      simp only [dataEntryProps, hmask]
      exact Nat.mod_eq_of_lt hfit
    · intro hfit
      simp only [metaEntryProps, hmask]
      exact Nat.mod_eq_of_lt hfit

/-- Witness for C1_entry_descriptors at a concrete table: one unsigned header
followed by two signed ones. -/
theorem C1_entry_descriptors_witness :
    createSelfEntries 4096 [demoPH PT_DYNAMIC 4 0, demoPH PT_LOAD 5 0, demoPH PT_LOAD 6 16]
      = (signedEnum [demoPH PT_DYNAMIC 4 0, demoPH PT_LOAD 5 0, demoPH PT_LOAD 6 16] 0 0).flatMap
          (entryPairFor 4096)
    ∧ (dataEntryProps 4096 1).segmentIndex = 1 := by
  refine ⟨(C1_entry_descriptors 4096 _).1, ?_⟩
  have h := (C1_entry_descriptors 4096
    [demoPH PT_DYNAMIC 4 0, demoPH PT_LOAD 5 0, demoPH PT_LOAD 6 16]).2.2
  have hmem : ((0 : Nat), (1 : Nat)) ∈
      signedEnum [demoPH PT_DYNAMIC 4 0, demoPH PT_LOAD 5 0, demoPH PT_LOAD 6 16] 0 0 := by
    decide
  exact (h _ hmem).1 (by decide)

/-- Counterexample to claim C1 as stated: with program headers
[PT_DYNAMIC, PT_LOAD], the single signed segment covers program-header index
1, so the claim predicts SEGMENT_INDEX fields [2, 1]; the code emits [1, 1]
(the meta entry carries the entry-table index of its data entry, not the
program-header index plus one). -/
theorem C1_counterexample :
    (createSelfEntries 4096 c1DemoProgs).map (fun e => e.segmentIndex) = [1, 1]
    ∧ (createSelfEntries 4096 c1DemoProgs).map (fun e => e.segmentIndex) ≠ [1 + 1, 1] := by
  decide

/-- Claim C6: the code crashes rather than completing when the input has no
PT_GNU_RELRO program header.  GenerateProgramHeaders dereferences the result
of getProgramHeader(PT_GNU_RELRO, PF_R) unconditionally (the
gnuRelroSegment.Memsz read at the top), so a missing header is a nil-pointer
panic — modelled as the none outcome — for every sorting routine and every
otherwise-valid input. -/
theorem C6_no_relro_panics (sortFn : List ProgHeader → List ProgHeader)
    (inp : GPHInput) (h : getProgramHeader PT_GNU_RELRO PF_R inp.progs = none) :
    GenerateProgramHeaders sortFn inp = none := by
  simp [GenerateProgramHeaders, GenerateProgramHeadersUnsorted, h]

/-- Witness for C6_no_relro_panics: the concrete no-relro input crashes. -/
theorem C6_no_relro_panics_witness :
    GenerateProgramHeaders (goSortLe12 phLess) c6Input = none :=
  C6_no_relro_panics (goSortLe12 phLess) c6Input (by decide)

/-- The _needSceLibcIndex recorded by writeSymbolTable is set exactly when
libc is among the LibrarySymbolDictionary keys. -/
theorem writeSymbolTable_needIdx_isSome (dynS statS : List GoSym)
    (dictKeys : List String) (offNid : Nat) (isLib : Bool) :
    ((writeSymbolTable dynS statS dictKeys offNid isLib).2).isSome
      = dictKeys.contains ("libc") := by
  have hany : dictKeys.any (fun k => k == "libc")
      = dictKeys.any (fun k => ("libc" : String) == k) := by
    induction dictKeys with
    | nil => rfl
    | cons a t ih =>
      simp only [List.any_cons, ih]
      have : (a == "libc") = (("libc" : String) == a) := by
        by_cases h : a = "libc" <;> simp [h]
        intro h2
        exact h h2.symm
      rw [this]
  simp only [writeSymbolTable, symTabLibcPart]
  cases h : dictKeys.findIdx? (fun k => k == "libc") with
  | none =>
    have : (dictKeys.findIdx? (fun k => k == "libc")).isSome
        = dictKeys.any (fun k => k == "libc") := List.findIdx?_isSome
    rw [h] at this
    simp only [Option.isSome_none] at this
    simp only [List.contains_eq_any_beq]
    rw [← hany, ← this]
    rfl
  | some v =>
    have : (dictKeys.findIdx? (fun k => k == "libc")).isSome
        = dictKeys.any (fun k => k == "libc") := List.findIdx?_isSome
    rw [h] at this
    simp only [Option.isSome_some] at this
    simp only [List.contains_eq_any_beq]
    rw [← hany, ← this]
    rfl

/-- Claim C7, amended.  The relocation table is the bumped .rela.plt entries,
then the bumped .rela.dyn entries, then — exactly when the Need_sceLibc
symbol was recorded — the synthesized R_AMD64_64 entries with addend 0
against symbol index _needSceLibcIndex + 2: for executables one at
value(_sceLibcParam) + 0x48, and in all cases a final one at the value of the
symbol named _sceLibc (not _sceNeedLibc as the claim says — the Go variable
is merely named sceNeedLibc).  Decoding the tail entries' info fields yields
the symbol index and relocation type. -/
theorem C7_relocation_tail (relaPlt relaDyn : List Rela) (staticSyms : List GoSym)
    (needIdx : Option Nat) (isLib : Bool) :
    writeRelocationTable relaPlt relaDyn needIdx staticSyms isLib
      = relaPlt.map bumpRela ++ relaDyn.map bumpRela ++ codeC7Tail needIdx staticSyms isLib
    ∧ codeC7Tail none staticSyms isLib = []
    ∧ (∀ k, needIdx = some k →
        (writeRelocationTable relaPlt relaDyn needIdx staticSyms isLib).getLast?
          = some (objectRelaEntry (getSymbol staticSyms ("_sceLibc")).value (k + 2)))
    ∧ (∀ k, needIdx = some k → k + 2 < 4294967296 →
        ∀ r ∈ codeC7Tail needIdx staticSyms isLib,
          r.rinfo / 4294967296 = k + 2 ∧ r.rinfo % 4294967296 = R_AMD64_64
            ∧ r.raddend = 0) := by
  have hsplit : writeRelocationTable relaPlt relaDyn needIdx staticSyms isLib
      = relaPlt.map bumpRela ++ relaDyn.map bumpRela
        ++ codeC7Tail needIdx staticSyms isLib := by
    cases needIdx with
    | none => simp [writeRelocationTable, codeC7Tail]
    | some k =>
      cases isLib <;> simp [writeRelocationTable, codeC7Tail]
  have hinfo : ∀ k, k + 2 < 4294967296 →
      (objectRelaEntry ((getSymbol staticSyms ("_sceLibc")).value) (k + 2)).rinfo
        = (k + 2) * 4294967296 + 1 := by
    intro k hk
    simp only [objectRelaEntry, R_AMD64_64, MOD64]
    apply Nat.mod_eq_of_lt
    nlinarith
  refine ⟨hsplit, rfl, ?_, ?_⟩
  · intro k hk
    subst hk
    rw [hsplit]
    cases isLib with
    | true =>
      show (_ ++ ([] ++ [_])).getLast? = _
      rw [List.nil_append]
      exact List.getLast?_concat _
    | false =>
      show (_ ++ ([_] ++ [_])).getLast? = _
      rw [← List.append_assoc]
      exact List.getLast?_concat _
  · intro k hk hfit r hr
    subst hk
    have harith : ∀ v : Nat, (objectRelaEntry v (k + 2)).rinfo / 4294967296 = k + 2
        ∧ (objectRelaEntry v (k + 2)).rinfo % 4294967296 = R_AMD64_64 := by
      intro v
      have hlt : (k + 2) * 4294967296 + 1 < MOD64 := by
        have hM : MOD64 = 18446744073709551616 := rfl
        rw [hM]
        nlinarith
      have hval : (objectRelaEntry v (k + 2)).rinfo = (k + 2) * 4294967296 + 1 := by
        simp only [objectRelaEntry, R_AMD64_64]
        exact Nat.mod_eq_of_lt hlt
      constructor
      · rw [hval, Nat.mul_comm, Nat.mul_add_div (by norm_num)]
      · rw [hval, Nat.mul_comm, Nat.mul_add_mod]
        rfl
    cases isLib with
    | true =>
      have hr2 : r = objectRelaEntry (getSymbol staticSyms ("_sceLibc")).value (k + 2) := by
        simpa [codeC7Tail] using hr
      subst hr2
      exact ⟨(harith _).1, (harith _).2, rfl⟩
    | false =>
      have hr2 : r = objectRelaEntry
            (wadd (getSymbol staticSyms ("_sceLibcParam")).value 72) (k + 2)
          ∨ r = objectRelaEntry (getSymbol staticSyms ("_sceLibc")).value (k + 2) := by
        simpa [codeC7Tail] using hr
      rcases hr2 with hr2 | hr2 <;> subst hr2 <;>
        exact ⟨(harith _).1, (harith _).2, rfl⟩

/-- Witness for C7_relocation_tail at the concrete demonstration symbols with
Need_sceLibc index 0, executable build. -/
theorem C7_relocation_tail_witness :
    writeRelocationTable [] [] (some 0) c7DemoSyms false
      = [].map bumpRela ++ [].map bumpRela ++ codeC7Tail (some 0) c7DemoSyms false
    ∧ (writeRelocationTable [] [] (some 0) c7DemoSyms false).getLast?
        = some (objectRelaEntry (getSymbol c7DemoSyms ("_sceLibc")).value 2) :=
  ⟨(C7_relocation_tail [] [] c7DemoSyms (some 0) false).1,
   (C7_relocation_tail [] [] c7DemoSyms (some 0) false).2.2.1 0 rfl⟩

/-- Counterexample to claim C7 as stated: with a symbol table where _sceLibc
has value 0x1000 and _sceNeedLibc has value 0x2000, the final synthesized
entry is at offset 0x1000 — the code looks up the symbol _sceLibc — whereas
the claim places it at value(_sceNeedLibc) = 0x2000. -/
theorem C7_counterexample :
    writeRelocationTable [] [] (some 0) c7DemoSyms false
      ≠ claimC7Tail (some 0) c7DemoSyms false
    ∧ (writeRelocationTable [] [] (some 0) c7DemoSyms false).getLast?
        ≠ some (objectRelaEntry (getSymbol c7DemoSyms ("_sceNeedLibc")).value (0 + 2))
    ∧ (writeRelocationTable [] [] (some 0) c7DemoSyms false).getLast?
        = some (objectRelaEntry (getSymbol c7DemoSyms ("_sceLibc")).value (0 + 2)) := by
  decide

/-- Claim C8, amended.  With no auth-info the slot is 0x100 zero bytes.  With
a non-empty auth-info whose hex decoding (by Go's decoder, errors discarded)
has n bytes: when 8 ≤ n ≤ 248 the slot is exactly the 0x100 bytes the claim
describes — decoded length, paid, decoded bytes from the 9th on, zero
padding.  (For n < 8 the code panics instead, and for n > 248 the slot
exceeds 0x100 bytes; see C10 and the counterexample.) -/
theorem C8_signature_slot :
    (∀ paid : Int, fselfSignature ("") paid = some (List.replicate 256 0))
    ∧ (∀ (authInfo : String) (paid : Int),
        authInfo ≠ ("") → 8 ≤ (goHexDecode authInfo).length →
        (goHexDecode authInfo).length ≤ 248 →
        fselfSignature authInfo paid = some (claimC8Slot authInfo paid)
        ∧ (claimC8Slot authInfo paid).length = 256) := by
  constructor
  · intro paid
    unfold fselfSignature
    rw [if_pos rfl]
    rfl
  · intro authInfo paid hne h8 h248
    have hlen8 : ∀ m : Nat, (le64 m).length = 8 := by intro m; simp [le64]
    have hbody : (le64 (goHexDecode authInfo).length
        ++ le64 (paid % (18446744073709551616 : Int)).toNat
        ++ (goHexDecode authInfo).drop 8).length
        = (goHexDecode authInfo).length + 8 := by
      simp [hlen8]
      omega
    constructor
    · simp only [fselfSignature, if_neg hne, createSignature, claimC8Slot]
      rw [if_neg (by omega)]
      have hgen : ∀ X : List Nat, X.length = (goHexDecode authInfo).length + 8 →
          X ++ List.replicate (paddingLen X.length 256) 0
            = X ++ List.replicate (256 - X.length) 0 := by
        intro X hXlen
        have hpad : paddingLen X.length 256 = 256 - X.length := by
          rw [hXlen]
          simp only [paddingLen]
          omega
        rw [hpad]
      exact congrArg some (hgen _ hbody)
    · simp only [claimC8Slot]
      rw [List.length_append, hbody, List.length_replicate]
      omega

/-- Witness for C8_signature_slot at the spec's own scenario: auth-info
00112233445566778899AABBCCDDEEFF and paid 0x42, together with the scenario's
predicted first 24 bytes. -/
theorem C8_signature_slot_witness :
    (fselfSignature ("00112233445566778899AABBCCDDEEFF") 66
        = some (claimC8Slot ("00112233445566778899AABBCCDDEEFF") 66)
      ∧ (claimC8Slot ("00112233445566778899AABBCCDDEEFF") 66).length = 256)
    ∧ (claimC8Slot ("00112233445566778899AABBCCDDEEFF") 66).take 24
        = [16, 0, 0, 0, 0, 0, 0, 0, 66, 0, 0, 0, 0, 0, 0, 0,
           136, 153, 170, 187, 204, 221, 238, 255] :=
  ⟨C8_signature_slot.2 ("00112233445566778899AABBCCDDEEFF") 66
      (by decide) (by decide) (by decide),
   by decide⟩

/-- Counterexample to claim C8 as stated: the auth-info hex string 00 is
non-empty, but its decoding is a single byte, so the slice
authInfoBytes[8:] is out of range and CreateFSELF panics (none) instead of
producing the claimed slot. -/
theorem C8_counterexample :
    fselfSignature ("00") 66 = none
    ∧ fselfSignature ("00") 66 ≠ some (claimC8Slot ("00") 66) := by
  decide

/-- Length of the Go hex decoding: always DecodedLen = len/2, whatever the
digits are (decode errors are discarded; undecoded bytes stay zero). -/
theorem goHexDecodeCore_length : ∀ cs : List Char,
    (goHexDecodeCore cs).length = cs.length / 2
  | [] => by simp [goHexDecodeCore]
  | [c] => by simp [goHexDecodeCore]
  | p :: q :: rest => by
    cases hp : hexDigit p <;> cases hq : hexDigit q <;>
      (simp [goHexDecodeCore, hp, hq, goHexDecodeCore_length rest]; try omega)

/-- Claim C10, amended.  createSignature panics (none) exactly on non-empty
auth-info decoding to fewer than 8 bytes; with at least 8 decoded bytes it
returns a signature of n + 8 bytes padded to a multiple of 0x100 — which is
0x100 exactly when n ≤ 248, not for every n as the claim says.  Hex validity
is never checked: the decoded buffer always has len/2 bytes, errors being
discarded. -/
theorem C10_createSignature_precondition :
    (∀ (a : String) (paid : Int), (goHexDecode a).length < 8 →
      createSignature a paid = none)
    ∧ (∀ (a : String) (paid : Int), 8 ≤ (goHexDecode a).length →
        ∃ sig, createSignature a paid = some sig
          ∧ sig.length = (goHexDecode a).length + 8
              + paddingLen ((goHexDecode a).length + 8) 256
          ∧ ((goHexDecode a).length ≤ 248 → sig.length = 256))
    ∧ (∀ a : String, (goHexDecode a).length = a.data.length / 2) := by
  refine ⟨?_, ?_, ?_⟩
  · intro a paid h
    simp [createSignature, if_pos h]
  · intro a paid h
    have hc : createSignature a paid
        = some ((le64 (goHexDecode a).length
              ++ le64 (paid % (18446744073709551616 : Int)).toNat
              ++ (goHexDecode a).drop 8)
            ++ List.replicate (paddingLen (le64 (goHexDecode a).length
                ++ le64 (paid % (18446744073709551616 : Int)).toNat
                ++ (goHexDecode a).drop 8).length 256) 0) := by
      simp only [createSignature]
      rw [if_neg (by omega)]
    have hlen8 : ∀ m : Nat, (le64 m).length = 8 := by intro m; simp [le64]
    refine ⟨_, hc, ?_, ?_⟩
    · simp only [List.length_append, List.length_replicate, hlen8,
        List.length_drop, paddingLen]
      omega
    · intro h248
      simp only [List.length_append, List.length_replicate, hlen8,
        List.length_drop, paddingLen]
      omega
  · intro a
    exact goHexDecodeCore_length a.data

/-- Witness for C10_createSignature_precondition: the one-byte auth-info 00
panics, and the spec-scenario auth-info yields a 0x100-byte signature. -/
theorem C10_createSignature_precondition_witness :
    createSignature ("00") 66 = none
    ∧ ∃ sig, createSignature ("00112233445566778899AABBCCDDEEFF") 66 = some sig
        ∧ sig.length = (goHexDecode ("00112233445566778899AABBCCDDEEFF")).length + 8
            + paddingLen ((goHexDecode ("00112233445566778899AABBCCDDEEFF")).length + 8) 256
        ∧ ((goHexDecode ("00112233445566778899AABBCCDDEEFF")).length ≤ 248 →
            sig.length = 256) :=
  ⟨C10_createSignature_precondition.1 ("00") 66 (by decide),
   C10_createSignature_precondition.2.1 ("00112233445566778899AABBCCDDEEFF") 66
     (by decide)⟩

/-- No output of the base64 alphabet lookup is the padding character. -/
theorem b64Char_ne_eq (n : Nat) : (b64Char n == '=') = false := by
  by_cases h : n < b64StdAlphabet.length
  · have hmem : b64Char n ∈ b64StdAlphabet := by
      unfold b64Char
      rw [List.getD_eq_getElem?_getD, List.getElem?_eq_getElem h]
      exact List.getElem_mem _
    have hall : ∀ c ∈ b64StdAlphabet, (c == '=') = false := by decide
    exact hall _ hmem
  · unfold b64Char
    rw [List.getD_eq_getElem?_getD, List.getElem?_eq_none (by omega)]
    rfl

/-- The base64 encoding of an 8-byte input is eleven alphabet characters
followed by exactly one padding character. -/
theorem base64Chunks_len8 (l : List Nat) (hl : l.length = 8) :
    ∃ ds, base64Chunks l = ds ++ ['='] ∧ ∀ c ∈ ds, (c == '=') = false := by
  rcases l with _|⟨b0,_|⟨b1,_|⟨b2,_|⟨b3,_|⟨b4,_|⟨b5,_|⟨b6,_|⟨b7,rest⟩⟩⟩⟩⟩⟩⟩⟩ <;>
    simp only [List.length_cons, List.length_nil] at hl
  all_goals try omega
  have hr : rest = [] := List.length_eq_zero.mp (by omega)
  subst hr
  refine ⟨[b64Char (b0 / 4), b64Char (b0 % 4 * 16 + b1 / 16),
           b64Char (b1 % 16 * 4 + b2 / 64), b64Char (b2 % 64),
           b64Char (b3 / 4), b64Char (b3 % 4 * 16 + b4 / 16),
           b64Char (b4 % 16 * 4 + b5 / 64), b64Char (b5 % 64),
           b64Char (b6 / 4), b64Char (b6 % 4 * 16 + b7 / 16),
           b64Char (b7 % 16 * 4)], rfl, ?_⟩
  intro c hc
  simp only [List.mem_cons, List.not_mem_nil, or_false] at hc
  rcases hc with rfl | rfl | rfl | rfl | rfl | rfl | rfl | rfl | rfl | rfl | rfl <;>
    exact b64Char_ne_eq _

/-- For a character list ending in its only padding character, dropping the
final character and stripping trailing padding coincide. -/
theorem stripLast_eq_dropTrailing (ds : List Char)
    (hds : ∀ c ∈ ds, (c == '=') = false) :
    (ds ++ ['=']).take ((ds ++ ['=']).length - 1)
      = ((ds ++ ['=']).reverse.dropWhile (fun c => c == '=')).reverse := by
  have h1 : (ds ++ ['=']).take ((ds ++ ['=']).length - 1) = ds := by
    have hlen : (ds ++ ['=']).length - 1 = ds.length := by
      rw [List.length_append]
      simp
    rw [hlen]
    exact List.take_left ds ['=']
  have h2 : ((ds ++ ['=']).reverse.dropWhile (fun c => c == '=')).reverse = ds := by
    rw [List.reverse_append]
    simp only [List.reverse_singleton, List.singleton_append, List.dropWhile_cons]
    rw [if_pos (show ('=' == '=') = true from rfl)]
    cases hrev : ds.reverse with
    | nil =>
      simp only [List.dropWhile_nil, List.reverse_nil]
      have := congrArg List.reverse hrev
      rw [List.reverse_reverse] at this
      simp at this
      exact this.symm
    | cons c t =>
      have hc : (c == '=') = false := by
        refine hds c ?_
        rw [← List.mem_reverse, hrev]
        exact List.mem_cons_self _ _
      rw [List.dropWhile_cons, if_neg (by simp [hc]), ← hrev, List.reverse_reverse]
  rw [h1, h2]

/-- The two readings of the hash half of an NID coincide: dropping the final
base64 character (the code) equals stripping the trailing padding (the
spec), because an 8-byte input always yields exactly one trailing pad. -/
theorem calculateNID_eq_spec (sha1 : List Nat → List Nat) (name : String)
    (hlen : (sha1 (strBytes name ++ goHexDecode nidSuffixKey)).length = 20) :
    calculateNID sha1 name = specNIDHash sha1 name := by
  have hle : (((sha1 (strBytes name ++ goHexDecode nidSuffixKey)).take 8).reverse).length = 8 := by
    simp [List.length_reverse, List.length_take, hlen]
  obtain ⟨ds, hchunks, hds⟩ := base64Chunks_len8 _ hle
  have key := stripLast_eq_dropTrailing ds hds
  simp only [calculateNID, specNIDHash, base64Encode]
  rw [hchunks, key]

/-- Claim C4, amended.  For every 20-byte hash function, symbol name and pair
of ids below 64, buildNIDEntry produces exactly the spec's encoding, with the
bypass branch read as the code computes it: element 1 of the Go Split on the
inner marker — the segment between the first and second occurrence of _NID_
(the whole remainder when it occurs once) — rather than everything after the
first occurrence. -/
theorem C4_nid_encoding (sha1 : List Nat → List Nat)
    (hsha : ∀ bs, (sha1 bs).length = 20)
    (name : String) (libId modId : Nat) (hl : libId < 64) (hm : modId < 64) :
    buildNIDEntry sha1 name libId modId
      = some (specNIDEntryAmended sha1 name libId modId) := by
  simp only [buildNIDEntry, specNIDEntryAmended]
  rw [if_pos ⟨hl, hm⟩]
  by_cases hp : goHasPre name ("__PS4_NID_") = true
  · simp [hp]
  · simp only [hp, Bool.false_eq_true, ite_false]
    rw [calculateNID_eq_spec sha1 name (hsha _)]

/-- Witness for C4_nid_encoding at a concrete hash function, name and ids. -/
theorem C4_nid_encoding_witness :
    buildNIDEntry cSha1 ("malloc") 2 3
      = some (specNIDEntryAmended cSha1 ("malloc") 2 3) :=
  C4_nid_encoding cSha1 (fun bs => by simp [cSha1]) ("malloc") 2 3
    (by decide) (by decide)

/-- Counterexample to claim C4 as stated: for the name __PS4_NID_A_NID_B,
the claim's reading — the literal after _NID_ — yields the NID A_NID_B...,
but the code takes strings.Split(name, _NID_)[1], which is just A. -/
theorem C4_counterexample :
    buildNIDEntry cSha1 ("__PS4_NID_A_NID_B") 0 0
      ≠ some (specNIDEntry cSha1 ("__PS4_NID_A_NID_B") 0 0)
    ∧ buildNIDEntry cSha1 ("__PS4_NID_A_NID_B") 0 0 = some ("A#A#A\x00")
    ∧ specNIDEntry cSha1 ("__PS4_NID_A_NID_B") 0 0 = ("A_NID_B#A#A\x00") := by
  refine ⟨?_, ?_, ?_⟩ <;> decide

/-- The findIdx? probe for libc succeeds exactly when the key list contains
libc. -/
theorem findIdx_libc_isSome (l : List String) :
    (l.findIdx? (fun k => k == "libc")).isSome = l.contains ("libc") := by
  have hany : l.any (fun k => k == "libc") = l.any (fun k => ("libc" : String) == k) := by
    induction l with
    | nil => rfl
    | cons a t ih =>
      simp only [List.any_cons, ih]
      have : (a == "libc") = (("libc" : String) == a) := by
        by_cases h : a = "libc" <;> simp [h]
        intro h2
        exact h h2.symm
      rw [this]
  rw [List.findIdx?_isSome, List.contains_eq_any_beq, hany]

/-- Every ok outcome of the writeNIDTable main loop has exactly one entry per
undefined dynamic symbol. -/
theorem writeNIDTableLoop_length (sha1 : List Nat → List Nat)
    (dict : List (String × List String)) (lmd : List (String × String))
    (modules : List String) :
    ∀ (dynSyms : List GoSym) (es : List String),
      writeNIDTableLoop sha1 dict lmd modules dynSyms = .ok es →
      es.length = dynSyms.countP (fun s => s.sectionIdx == SHN_UNDEF) := by
  intro dynSyms
  induction dynSyms with
  | nil =>
    intro es h
    simp only [writeNIDTableLoop] at h
    cases h
    rfl
  | cons s rest ih =>
    intro es h
    simp only [writeNIDTableLoop] at h
    split at h
    next hskip =>
      have hbeq : (s.sectionIdx == SHN_UNDEF) = false := by
        simpa [bne] using hskip
      simp [List.countP_cons, hbeq, ih es h]
    next hkeep =>
      have hbeq : (s.sectionIdx == SHN_UNDEF) = true := by
        simpa [bne] using hkeep
      split at h
      next => cases h
      next idx libName hfind =>
        split at h
        next => cases h
        next moduleName hmod =>
          split at h
          next => cases h
          next mIdx hidx =>
            split at h
            next => cases h
            next e hbuild =>
              cases hrec : writeNIDTableLoop sha1 dict lmd modules rest with
              | ok es1 =>
                rw [hrec] at h
                simp only [GoRes.map] at h
                cases h
                simp [List.countP_cons, hbeq, ih es1 hrec]
              | goErr m => rw [hrec] at h; cases h
              | crash => rw [hrec] at h; cases h

/-- Every ok outcome of the exported-symbols loop has exactly one entry per
exported symbol. -/
theorem writeNIDTableExported_length (sha1 : List Nat → List Nat) :
    ∀ (syms : List GoSym) (es : List String),
      writeNIDTableExported sha1 syms = .ok es →
      es.length = syms.countP exportedSym := by
  intro syms
  induction syms with
  | nil =>
    intro es h
    simp only [writeNIDTableExported] at h
    cases h
    rfl
  | cons s rest ih =>
    intro es h
    simp only [writeNIDTableExported] at h
    split at h
    next hexp =>
      split at h
      next => cases h
      next e hbuild =>
        cases hrec : writeNIDTableExported sha1 rest with
        | ok es1 =>
          rw [hrec] at h
          simp only [GoRes.map] at h
          cases h
          simp [List.countP_cons, hexp, ih es1 hrec]
        | goErr m => rw [hrec] at h; cases h
        | crash => rw [hrec] at h; cases h
    next hexp =>
      have hb : exportedSym s = false := by
        cases hval : exportedSym s
        · rfl
        · exact absurd hval hexp
      simp [List.countP_cons, hb, ih es h]

/-- Claim C2, amended.  When writeNIDTable succeeds, the number of NID
entries emitted equals the number of undefined dynamic symbols — one entry
per symbol, attributed to the first library in dictionary order whose list
defines it, not one per defining library — plus 1 when libc is among the
modules, plus the number of exported global or weak symbols with nonzero
value when building a library. -/
theorem C2_nid_count (sha1 : List Nat → List Nat) (dynSyms staticSyms : List GoSym)
    (dict : List (String × List String)) (lmd : List (String × String))
    (modules : List String) (isLib : Bool) (es : List String)
    (h : writeNIDTable sha1 dynSyms staticSyms dict lmd modules isLib = .ok es) :
    es.length = dynSyms.countP (fun s => s.sectionIdx == SHN_UNDEF)
      + (if modules.contains ("libc") then 1 else 0)
      + (if isLib then staticSyms.countP exportedSym else 0) := by
  cases hloop : writeNIDTableLoop sha1 dict lmd modules dynSyms with
  | goErr m => simp only [writeNIDTable, hloop] at h; cases h
  | crash => simp only [writeNIDTable, hloop] at h; cases h
  | ok es1 =>
    have hlen1 := writeNIDTableLoop_length sha1 dict lmd modules dynSyms es1 hloop
    have hcontains := findIdx_libc_isSome modules
    cases hlib : modules.findIdx? (fun m => m == "libc") with
    | some li =>
      rw [hlib] at hcontains
      simp only [Option.isSome_some] at hcontains
      have hmem : ("libc" : String) ∈ modules := by simpa using hcontains.symm
      cases hbuild : buildNIDEntry sha1 ("Need_sceLibc") (1 + li) (1 + li) with
      | none => simp only [writeNIDTable, hloop, hlib, hbuild] at h; cases h
      | some e =>
        cases isLib with
        | false =>
          simp [writeNIDTable, hloop, hlib, hbuild] at h
          subst h
          simp [hlen1, hmem]
        | true =>
          cases hexp : writeNIDTableExported sha1 staticSyms with
          | ok es2 =>
            have hlen2 := writeNIDTableExported_length sha1 staticSyms es2 hexp
            simp [writeNIDTable, hloop, hlib, hbuild, hexp, GoRes.map] at h
            subst h
            simp [hlen1, hlen2, hmem]
            omega
          | goErr m => simp [writeNIDTable, hloop, hlib, hbuild, hexp, GoRes.map] at h
          | crash => simp [writeNIDTable, hloop, hlib, hbuild, hexp, GoRes.map] at h
    | none =>
      rw [hlib] at hcontains
      simp only [Option.isSome_none] at hcontains
      have hmem : ("libc" : String) ∉ modules := by simpa using hcontains.symm
      cases isLib with
      | false =>
        simp [writeNIDTable, hloop, hlib] at h
        subst h
        simp [hlen1, hmem]
      | true =>
        cases hexp : writeNIDTableExported sha1 staticSyms with
        | ok es2 =>
          have hlen2 := writeNIDTableExported_length sha1 staticSyms es2 hexp
          simp [writeNIDTable, hloop, hlib, hexp, GoRes.map] at h
          subst h
          simp [hlen1, hlen2, hmem]
        | goErr m => simp [writeNIDTable, hloop, hlib, hexp, GoRes.map] at h
        | crash => simp [writeNIDTable, hloop, hlib, hexp, GoRes.map] at h

/-- The library-search loop succeeds exactly when some dictionary entry's
symbol list contains the name. -/
theorem findLibFor_isSome :
    ∀ (dict : List (String × List String)) (name : String) (i : Nat),
      (findLibFor dict name i).isSome = dict.any (fun p => p.2.contains name) := by
  intro dict name
  induction dict with
  | nil => intro i; rfl
  | cons p rest ih =>
    intro i
    obtain ⟨lib, syms⟩ := p
    simp only [findLibFor, List.any_cons]
    cases hv : syms.contains name
    · rw [if_neg (by simp), Bool.false_or]
      exact ih (i + 1)
    · rw [if_pos rfl, Bool.true_or]
      rfl

/-- What a successful library search returns: a dictionary entry containing
the name, at an index below the dictionary length (plus the start index). -/
theorem findLibFor_some_spec :
    ∀ (dict : List (String × List String)) (name : String) (i idx : Nat)
      (lib : String),
      findLibFor dict name i = some (idx, lib) →
      ∃ syms, (lib, syms) ∈ dict ∧ syms.contains name = true
        ∧ idx < i + dict.length := by
  intro dict name
  induction dict with
  | nil => intro i idx lib h; cases h
  | cons p rest ih =>
    intro i idx lib h
    obtain ⟨l0, syms0⟩ := p
    simp only [findLibFor] at h
    split at h
    next hc =>
      cases h
      exact ⟨syms0, List.mem_cons_self _ _, hc,
        by simp only [List.length_cons]; omega⟩
    next hc =>
      obtain ⟨syms, hmem, hcont, hlt⟩ := ih (i + 1) idx lib h
      refine ⟨syms, List.mem_cons_of_mem _ hmem, hcont, ?_⟩
      simp only [List.length_cons]
      omega

/-- buildNIDEntry succeeds whenever both ids are below 64. -/
theorem buildNIDEntry_isSome (sha1 : List Nat → List Nat) (name : String)
    (libId modId : Nat) (hl : libId < 64) (hm : modId < 64) :
    ∃ e, buildNIDEntry sha1 name libId modId = some e := by
  cases hv : buildNIDEntry sha1 name libId modId with
  | some e => exact ⟨e, rfl⟩
  | none =>
    exfalso
    simp only [buildNIDEntry] at hv
    rw [if_pos ⟨hl, hm⟩] at hv
    cases hv

/-- A non-undefined dynamic symbol is skipped by the writeNIDTable loop. -/
theorem writeNIDTableLoop_skip (sha1 : List Nat → List Nat)
    (dict : List (String × List String)) (lmd : List (String × String))
    (modules : List String) (t : GoSym) (rest : List GoSym)
    (h : t.sectionIdx ≠ SHN_UNDEF) :
    writeNIDTableLoop sha1 dict lmd modules (t :: rest)
      = writeNIDTableLoop sha1 dict lmd modules rest := by
  simp [writeNIDTableLoop, h]

/-- An undefined, attributed dynamic symbol contributes exactly one entry
(under the dictionary well-formedness side conditions). -/
theorem writeNIDTableLoop_step (sha1 : List Nat → List Nat)
    (dict : List (String × List String)) (lmd : List (String × String))
    (modules : List String)
    (hdict : dict.length ≤ 63) (hmods : modules.length ≤ 63)
    (hmap : ∀ p ∈ dict, ∀ n : String, p.2.contains n = true →
      ∃ m, lookupStr lmd p.1 = some m ∧ m ∈ modules)
    (t : GoSym) (rest : List GoSym)
    (hundef : t.sectionIdx = SHN_UNDEF) (hatt : symAttributed dict t = true) :
    ∃ e, writeNIDTableLoop sha1 dict lmd modules (t :: rest)
      = GoRes.map (fun es => e :: es)
          (writeNIDTableLoop sha1 dict lmd modules rest) := by
  have hsome : (findLibFor dict t.name 0).isSome = true := by
    rw [findLibFor_isSome]
    exact hatt
  obtain ⟨pr, hpr⟩ := Option.isSome_iff_exists.mp hsome
  obtain ⟨idx, lib⟩ := pr
  obtain ⟨syms, hmem, hcont, hlt⟩ := findLibFor_some_spec dict t.name 0 idx lib hpr
  obtain ⟨m, hlook, hmmem⟩ := hmap (lib, syms) hmem t.name hcont
  have hmsome : (modules.findIdx? (fun x => x == m)).isSome = true := by
    rw [List.findIdx?_isSome, List.any_eq_true]
    exact ⟨m, hmmem, by simp⟩
  obtain ⟨mIdx, hmidx⟩ := Option.isSome_iff_exists.mp hmsome
  have hmlt : mIdx < modules.length :=
    (List.findIdx?_eq_some_iff_findIdx_eq.mp hmidx).1
  obtain ⟨e, he⟩ := buildNIDEntry_isSome sha1 t.name (1 + idx) (1 + mIdx)
    (by omega) (by omega)
  refine ⟨e, ?_⟩
  simp [writeNIDTableLoop, hundef, hpr, hlook, hmidx, he]

/-- Success of the writeNIDTable loop when every undefined dynamic symbol is
attributed to some library. -/
theorem writeNIDTableLoop_ok (sha1 : List Nat → List Nat)
    (dict : List (String × List String)) (lmd : List (String × String))
    (modules : List String)
    (hdict : dict.length ≤ 63) (hmods : modules.length ≤ 63)
    (hmap : ∀ p ∈ dict, ∀ n : String, p.2.contains n = true →
      ∃ m, lookupStr lmd p.1 = some m ∧ m ∈ modules) :
    ∀ dynSyms : List GoSym,
      (∀ s ∈ dynSyms, s.sectionIdx = SHN_UNDEF → symAttributed dict s = true) →
      ∃ es, writeNIDTableLoop sha1 dict lmd modules dynSyms = .ok es := by
  intro dynSyms
  induction dynSyms with
  | nil => intro _; exact ⟨[], rfl⟩
  | cons t rest ih =>
    intro hall
    obtain ⟨es1, hes1⟩ := ih (fun u hu => hall u (List.mem_cons_of_mem _ hu))
    by_cases hundef : t.sectionIdx = SHN_UNDEF
    · obtain ⟨e, he⟩ := writeNIDTableLoop_step sha1 dict lmd modules hdict hmods
        hmap t rest hundef (hall t (List.mem_cons_self _ _) hundef)
      exact ⟨e :: es1, by rw [he, hes1]; rfl⟩
    · exact ⟨es1, by
        rw [writeNIDTableLoop_skip sha1 dict lmd modules t rest hundef, hes1]⟩

/-- An ok outcome of the writeNIDTable loop means every undefined dynamic
symbol was attributed. -/
theorem writeNIDTableLoop_ok_attributed (sha1 : List Nat → List Nat)
    (dict : List (String × List String)) (lmd : List (String × String))
    (modules : List String) :
    ∀ (dynSyms : List GoSym) (es : List String),
      writeNIDTableLoop sha1 dict lmd modules dynSyms = .ok es →
      ∀ s ∈ dynSyms, s.sectionIdx = SHN_UNDEF → symAttributed dict s = true := by
  intro dynSyms
  induction dynSyms with
  | nil => intro es _ s hs; cases hs
  | cons t rest ih =>
    intro es h s hs hundef
    simp only [writeNIDTableLoop] at h
    split at h
    next hskip =>
      rcases List.mem_cons.mp hs with hst | hsr
      · subst hst
        have : s.sectionIdx ≠ SHN_UNDEF := by
          simpa [bne] using hskip
        exact absurd hundef this
      · exact ih es h s hsr hundef
    next hkeep =>
      split at h
      next => cases h
      next idx libName hfind =>
        split at h
        next => cases h
        next moduleName hmod =>
          split at h
          next => cases h
          next mIdx hidx =>
            split at h
            next => cases h
            next e hbuild =>
              cases hrec : writeNIDTableLoop sha1 dict lmd modules rest with
              | ok es1 =>
                rcases List.mem_cons.mp hs with hst | hsr
                · subst hst
                  have : (findLibFor dict s.name 0).isSome = true := by
                    rw [hfind]; rfl
                  rw [findLibFor_isSome] at this
                  exact this
                · exact ih es1 hrec s hsr hundef
              | goErr m => rw [hrec] at h; cases h
              | crash => rw [hrec] at h; cases h

/-- The writeNIDTable loop reports the first unattributed undefined symbol as
a missing-library error. -/
theorem writeNIDTableLoop_first_err (sha1 : List Nat → List Nat)
    (dict : List (String × List String)) (lmd : List (String × String))
    (modules : List String)
    (hdict : dict.length ≤ 63) (hmods : modules.length ≤ 63)
    (hmap : ∀ p ∈ dict, ∀ n : String, p.2.contains n = true →
      ∃ m, lookupStr lmd p.1 = some m ∧ m ∈ modules) :
    ∀ (pre : List GoSym) (s : GoSym) (post : List GoSym),
      s.sectionIdx = SHN_UNDEF → symAttributed dict s = false →
      (∀ t ∈ pre, t.sectionIdx = SHN_UNDEF → symAttributed dict t = true) →
      writeNIDTableLoop sha1 dict lmd modules (pre ++ s :: post)
        = .goErr ("missing library for symbol (" ++ s.name ++ ")") := by
  intro pre
  induction pre with
  | nil =>
    intro s post hundef hnotatt _
    have hnone : findLibFor dict s.name 0 = none := by
      cases hv : findLibFor dict s.name 0 with
      | none => rfl
      | some pr =>
        have : (findLibFor dict s.name 0).isSome = true := by rw [hv]; rfl
        rw [findLibFor_isSome] at this
        rw [symAttributed] at hnotatt
        rw [this] at hnotatt
        cases hnotatt
    simp [writeNIDTableLoop, hundef, hnone]
  | cons t pre' ih =>
    intro s post hundef hnotatt hpre
    have hrest := ih s post hundef hnotatt
      (fun u hu => hpre u (List.mem_cons_of_mem _ hu))
    by_cases htu : t.sectionIdx = SHN_UNDEF
    · obtain ⟨e, he⟩ := writeNIDTableLoop_step sha1 dict lmd modules hdict hmods
        hmap t (pre' ++ s :: post) htu (hpre t (List.mem_cons_self _ _) htu)
      rw [List.cons_append, he, hrest]
      rfl
    · rw [List.cons_append,
        writeNIDTableLoop_skip sha1 dict lmd modules t _ htu, hrest]

/-- The exported-symbols loop always succeeds (its ids are the constant 0). -/
theorem writeNIDTableExported_ok (sha1 : List Nat → List Nat) :
    ∀ syms : List GoSym, ∃ es, writeNIDTableExported sha1 syms = .ok es := by
  intro syms
  induction syms with
  | nil => exact ⟨[], rfl⟩
  | cons s rest ih =>
    obtain ⟨es1, hes1⟩ := ih
    by_cases hexp : exportedSym s = true
    · obtain ⟨e, he⟩ := buildNIDEntry_isSome sha1 s.name 0 0 (by omega) (by omega)
      exact ⟨e :: es1, by simp [writeNIDTableExported, hexp, he, hes1]; rfl⟩
    · have hb : exportedSym s = false := by
        cases hv : exportedSym s
        · rfl
        · exact absurd hv hexp
      exact ⟨es1, by simp [writeNIDTableExported, hb, hes1]⟩

/-- Claim C9, amended.  Under the dictionary shape GenerateLibrarySymbolDictionary
guarantees (every attributed library maps to a listed module; at most 63
libraries and modules), writeNIDTable succeeds exactly when every undefined
dynamic symbol — including _DYNAMIC, which the attribution pass never
attributes, so an undefined _DYNAMIC always fails — is contained in some
library's attributed list; and the first unattributed undefined symbol is
reported as the single missing-library error. -/
theorem C9_unresolved_symbol (sha1 : List Nat → List Nat)
    (dynSyms staticSyms : List GoSym) (dict : List (String × List String))
    (lmd : List (String × String)) (modules : List String) (isLib : Bool)
    (hdict : dict.length ≤ 63) (hmods : modules.length ≤ 63)
    (hmap : ∀ p ∈ dict, ∀ n : String, p.2.contains n = true →
      ∃ m, lookupStr lmd p.1 = some m ∧ m ∈ modules) :
    ((∃ es, writeNIDTable sha1 dynSyms staticSyms dict lmd modules isLib = .ok es)
      ↔ ∀ s ∈ dynSyms, s.sectionIdx = SHN_UNDEF → symAttributed dict s = true)
    ∧ (∀ (pre : List GoSym) (s : GoSym) (post : List GoSym),
        dynSyms = pre ++ s :: post → s.sectionIdx = SHN_UNDEF →
        symAttributed dict s = false →
        (∀ t ∈ pre, t.sectionIdx = SHN_UNDEF → symAttributed dict t = true) →
        writeNIDTable sha1 dynSyms staticSyms dict lmd modules isLib
          = .goErr ("missing library for symbol (" ++ s.name ++ ")")) := by
  constructor
  · constructor
    · rintro ⟨es, hok⟩
      cases hloop : writeNIDTableLoop sha1 dict lmd modules dynSyms with
      | ok es1 =>
        exact writeNIDTableLoop_ok_attributed sha1 dict lmd modules dynSyms es1 hloop
      | goErr m => simp only [writeNIDTable, hloop] at hok; cases hok
      | crash => simp only [writeNIDTable, hloop] at hok; cases hok
    · intro hall
      obtain ⟨es1, hes1⟩ := writeNIDTableLoop_ok sha1 dict lmd modules hdict
        hmods hmap dynSyms hall
      cases hlib : modules.findIdx? (fun m => m == "libc") with
      | some li =>
        have hlt : li < modules.length :=
          (List.findIdx?_eq_some_iff_findIdx_eq.mp hlib).1
        obtain ⟨e, he⟩ := buildNIDEntry_isSome sha1 ("Need_sceLibc") (1 + li)
          (1 + li) (by omega) (by omega)
        cases isLib with
        | false =>
          exact ⟨es1 ++ [e], by simp [writeNIDTable, hes1, hlib, he]⟩
        | true =>
          obtain ⟨es2, hes2⟩ := writeNIDTableExported_ok sha1 staticSyms
          exact ⟨es1 ++ [e] ++ es2,
            by simp [writeNIDTable, hes1, hlib, he, hes2, GoRes.map]⟩
      | none =>
        cases isLib with
        | false => exact ⟨es1, by simp [writeNIDTable, hes1, hlib]⟩
        | true =>
          obtain ⟨es2, hes2⟩ := writeNIDTableExported_ok sha1 staticSyms
          exact ⟨es1 ++ es2,
            by simp [writeNIDTable, hes1, hlib, hes2, GoRes.map]⟩
  · intro pre s post hsplit hundef hnotatt hpre
    subst hsplit
    have herr := writeNIDTableLoop_first_err sha1 dict lmd modules hdict hmods
      hmap pre s post hundef hnotatt hpre
    simp [writeNIDTable, herr]

/-- Witness for C9_unresolved_symbol at the concrete libkernel-only inputs:
all hypotheses hold, the success direction applies to an attributed symbol
list, and the failure direction to an unattributed one. -/
theorem C9_unresolved_symbol_witness :
    (∃ es, writeNIDTable cSha1 [] [] [("libkernel", ["open"])]
        [("libkernel", "libkernel")] ["libkernel"] false = .ok es)
    ∧ writeNIDTable cSha1 [undefSym ("bar")] [] [("libkernel", ["open"])]
        [("libkernel", "libkernel")] ["libkernel"] false
        = .goErr ("missing library for symbol (bar)") := by
  have hdict : ([("libkernel", ["open"])] : List (String × List String)).length ≤ 63 := by
    decide
  have hmods : (["libkernel"] : List String).length ≤ 63 := by decide
  have hmap : ∀ p ∈ ([("libkernel", ["open"])] : List (String × List String)),
      ∀ n : String, p.2.contains n = true →
      ∃ m, lookupStr [("libkernel", "libkernel")] p.1 = some m
        ∧ m ∈ (["libkernel"] : List String) := by
    intro p hp n hn
    refine ⟨"libkernel", ?_, by decide⟩
    rcases List.mem_singleton.mp hp with rfl
    rfl
  constructor
  · exact (C9_unresolved_symbol cSha1 [] [] [("libkernel", ["open"])]
      [("libkernel", "libkernel")] ["libkernel"] false hdict hmods hmap).1.mpr
      (fun s hs => by cases hs)
  · exact (C9_unresolved_symbol cSha1 [undefSym ("bar")] [] [("libkernel", ["open"])]
      [("libkernel", "libkernel")] ["libkernel"] false hdict hmods hmap).2
      [] (undefSym ("bar")) [] rfl rfl (by decide) (fun t ht => by cases ht)

/-- Counterexample to claim C9 as stated: _DYNAMIC appears as an undefined
dynamic symbol and every undefined symbol other than _DYNAMIC is attributed
(there are none), so the claim predicts success; but writeNIDTable has no
_DYNAMIC exemption — only the attribution pass does — and fails. -/
theorem C9_counterexample :
    writeNIDTable cSha1 [undefSym ("_DYNAMIC")] [] [("libkernel", [])]
        [("libkernel", "libkernel")] ["libkernel"] false
      = .goErr ("missing library for symbol (_DYNAMIC)")
    ∧ ([undefSym ("_DYNAMIC")].filter
        (fun s => s.sectionIdx == SHN_UNDEF && s.name != ("_DYNAMIC"))) = [] := by
  decide

/-- Peeling one advancing slot off the name sequence. -/
theorem specNameSeq_succ (off cnt k : Nat) :
    specNameSeq off cnt (k + 1)
      = (off + cnt * 16) % MOD32 :: specNameSeq off (cnt + 1) k := by
  simp only [specNameSeq, List.range_succ_eq_map, List.map_cons, List.map_map]
  congr 1
  apply List.map_congr_left
  intro j _
  simp only [Function.comp_apply]
  congr 2
  omega

/-- The name sequence splits across consecutive slot groups. -/
theorem specNameSeq_append (off : Nat) :
    ∀ (k1 : Nat) (cnt k2 : Nat),
      specNameSeq off cnt (k1 + k2)
        = specNameSeq off cnt k1 ++ specNameSeq off (cnt + k1) k2 := by
  intro k1
  induction k1 with
  | zero =>
    intro cnt k2
    simp [specNameSeq]
  | succ k ih =>
    intro cnt k2
    have h1 : k + 1 + k2 = (k + k2) + 1 := by omega
    rw [h1, specNameSeq_succ, ih (cnt + 1) k2, specNameSeq_succ]
    simp only [List.cons_append]
    have h2 : cnt + 1 + k = cnt + (k + 1) := by omega
    rw [h2]

/-- The names of the undefined-dynamic-symbols entries advance by 0x10 per
slot when every undefined symbol has a nonempty name, and the count advances
by the number of undefined symbols. -/
theorem symTabDynEntries_spec (offNid : Nat) :
    ∀ (syms : List GoSym) (cnt : Nat),
      (∀ s ∈ syms, s.sectionIdx = SHN_UNDEF → s.name ≠ ("")) →
      (symTabDynEntries offNid syms cnt).1.map (fun e => e.name)
          = specNameSeq offNid cnt (syms.countP (fun s => s.sectionIdx == SHN_UNDEF))
      ∧ (symTabDynEntries offNid syms cnt).2
          = cnt + syms.countP (fun s => s.sectionIdx == SHN_UNDEF) := by
  intro syms
  induction syms with
  | nil =>
    intro cnt _
    constructor
    · simp [symTabDynEntries, specNameSeq]
    · simp [symTabDynEntries]
  | cons s rest ih =>
    intro cnt hnames
    have hrest := fun cnt2 => ih cnt2 (fun u hu => hnames u (List.mem_cons_of_mem _ hu))
    by_cases hundef : s.sectionIdx = SHN_UNDEF
    · have hname : s.name ≠ ("") := hnames s (List.mem_cons_self _ _) hundef
      have hcnt : (s.sectionIdx == SHN_UNDEF) = true := by simp [hundef]
      have hb1 : (s.sectionIdx != SHN_UNDEF) = false := by simp [hundef]
      have hb2 : (s.name != ("")) = true := by simp [hname]
      have hone : List.countP (fun s => s.sectionIdx == SHN_UNDEF) (s :: rest)
          = List.countP (fun s => s.sectionIdx == SHN_UNDEF) rest + 1 := by
        rw [List.countP_cons, if_pos hcnt]
      constructor
      · simp only [symTabDynEntries, hb1, Bool.false_eq_true, ite_false, hb2,
          ite_true, List.map_cons, hone, specNameSeq_succ, (hrest (cnt + 1)).1]
      · simp only [symTabDynEntries, hb1, Bool.false_eq_true, ite_false, hb2,
          ite_true, hone, (hrest (cnt + 1)).2]
        omega
    · have hcnt : (s.sectionIdx == SHN_UNDEF) = false := by simp [hundef]
      have hb1 : (s.sectionIdx != SHN_UNDEF) = true := by simp [hundef]
      have hzero : List.countP (fun s => s.sectionIdx == SHN_UNDEF) (s :: rest)
          = List.countP (fun s => s.sectionIdx == SHN_UNDEF) rest := by
        rw [List.countP_cons]
        simp [hcnt]
      constructor
      · simp only [symTabDynEntries, hb1, ite_true, hzero, (hrest cnt).1]
      · simp only [symTabDynEntries, hb1, ite_true, hzero, (hrest cnt).2]

/-- The names of the exported-symbols entries likewise advance by 0x10 per
exported symbol. -/
theorem symTabExported_spec (offNid : Nat) :
    ∀ (syms : List GoSym) (cnt : Nat),
      (symTabExported offNid syms cnt).1.map (fun e => e.name)
          = specNameSeq offNid cnt (syms.countP exportedSym)
      ∧ (symTabExported offNid syms cnt).2 = cnt + syms.countP exportedSym := by
  intro syms
  induction syms with
  | nil =>
    intro cnt
    constructor
    · simp [symTabExported, specNameSeq]
    · simp [symTabExported]
  | cons s rest ih =>
    intro cnt
    cases hexp : exportedSym s
    · have hzero : List.countP exportedSym (s :: rest) = List.countP exportedSym rest := by
        rw [List.countP_cons]
        simp [hexp]
      constructor
      · simp only [symTabExported, hexp, Bool.false_eq_true, ite_false, hzero,
          (ih cnt).1]
      · simp only [symTabExported, hexp, Bool.false_eq_true, ite_false, hzero,
          (ih cnt).2]
    · have hone : List.countP exportedSym (s :: rest) = List.countP exportedSym rest + 1 := by
        rw [List.countP_cons, if_pos hexp]
      constructor
      · simp only [symTabExported, hexp, ite_true, List.map_cons, hone,
          specNameSeq_succ, (ih (cnt + 1)).1]
      · simp only [symTabExported, hexp, ite_true, hone, (ih (cnt + 1)).2]
        omega

/-- The names, recorded index and advanced count of the Need_sceLibc step. -/
theorem symTabLibcPart_spec (offNid cnt : Nat) (dictKeys : List String) :
    (symTabLibcPart offNid cnt dictKeys).1.map (fun e => e.name)
        = specNameSeq offNid cnt (if dictKeys.contains ("libc") then 1 else 0)
    ∧ (symTabLibcPart offNid cnt dictKeys).2.2
        = cnt + (if dictKeys.contains ("libc") then 1 else 0)
    ∧ ((symTabLibcPart offNid cnt dictKeys).2.1).isSome
        = dictKeys.contains ("libc") := by
  have hcontains := findIdx_libc_isSome dictKeys
  cases hlib : dictKeys.findIdx? (fun k => k == "libc") with
  | some li =>
    rw [hlib] at hcontains
    simp only [Option.isSome_some] at hcontains
    simp only [symTabLibcPart, hlib, ← hcontains, ite_true]
    refine ⟨?_, by trivial, by trivial⟩
    rw [specNameSeq_succ]
    simp [specNameSeq]
  | none =>
    rw [hlib] at hcontains
    simp only [Option.isSome_none] at hcontains
    simp only [symTabLibcPart, hlib, ← hcontains, ite_false]
    refine ⟨?_, by trivial, by trivial⟩
    simp [specNameSeq]

/-- Claim C3, amended.  With every undefined dynamic symbol carrying a
nonempty name, the symbol-table name column is: two zero entries, then one
slot per advancing entry (undefined dynamic symbols, the Need_sceLibc entry,
exported symbols of a library build) with name
offset_of_nid_table + slot * 0x10 (truncated to uint32) — and, for a library
build, the trailing module_stop/module_start pair, whose names are
offset + numSymbols * 0x10 and that value plus 12 (the length of the string
module_stop with its NUL), not plus 0x10 as the claim asserts.  (With an
empty-named undefined symbol the claim also fails: the placeholder entry has
name 0 and does not advance the counter; see the hypothesis.) -/
theorem C3_symbol_table_names (dynSyms staticSyms : List GoSym)
    (dictKeys : List String) (offNid : Nat) (isLib : Bool)
    (hnames : ∀ s ∈ dynSyms, s.sectionIdx = SHN_UNDEF → s.name ≠ ("")) :
    ((writeSymbolTable dynSyms staticSyms dictKeys offNid isLib).1).map (fun e => e.name)
      = [0, 0] ++ specNameSeq offNid 0 (symTabAdvCount dynSyms staticSyms dictKeys isLib)
        ++ (if isLib then
              [(offNid + symTabAdvCount dynSyms staticSyms dictKeys isLib * 16) % MOD32,
               (offNid + symTabAdvCount dynSyms staticSyms dictKeys isLib * 16 + 12) % MOD32]
            else []) := by
  obtain ⟨hdynMap, hdynCnt⟩ := symTabDynEntries_spec offNid dynSyms 0 hnames
  simp only [Nat.zero_add] at hdynCnt
  obtain ⟨hlMap, hlCnt, hlSome⟩ := symTabLibcPart_spec offNid
    (dynSyms.countP (fun s => s.sectionIdx == SHN_UNDEF)) dictKeys
  cases isLib with
  | false =>
    simp only [writeSymbolTable, Bool.false_eq_true, ite_false, List.map_cons,
      List.map_append, List.map_nil, List.append_nil, hdynCnt, hdynMap, hlMap,
      symTabAdvCount, Nat.add_zero]
    rw [specNameSeq_append offNid
      (dynSyms.countP (fun s => s.sectionIdx == SHN_UNDEF)) 0
      (if dictKeys.contains ("libc") then 1 else 0)]
    simp [List.append_assoc, zeroSymEntry]
  | true =>
    obtain ⟨hexpMap, hexpCnt⟩ := symTabExported_spec offNid staticSyms
      (dynSyms.countP (fun s => s.sectionIdx == SHN_UNDEF)
        + (if dictKeys.contains ("libc") then 1 else 0))
    simp only [writeSymbolTable, ite_true, List.map_cons, List.map_append,
      List.map_nil, List.append_nil, hdynCnt, hdynMap, hlMap, hlCnt, hexpMap,
      hexpCnt, symTabAdvCount]
    rw [specNameSeq_append offNid
      (dynSyms.countP (fun s => s.sectionIdx == SHN_UNDEF)
        + (if dictKeys.contains ("libc") then 1 else 0)) 0
      (staticSyms.countP exportedSym)]
    rw [specNameSeq_append offNid
      (dynSyms.countP (fun s => s.sectionIdx == SHN_UNDEF)) 0
      (if dictKeys.contains ("libc") then 1 else 0)]
    simp [List.append_assoc, zeroSymEntry]

/-- Witness for C3_symbol_table_names at a concrete executable input with one
named undefined symbol and libc present. -/
theorem C3_symbol_table_names_witness :
    ((writeSymbolTable [undefSym ("malloc")] [] ["libc"] 32 false).1).map (fun e => e.name)
      = [0, 0] ++ specNameSeq 32 0 (symTabAdvCount [undefSym ("malloc")] [] ["libc"] false)
        ++ (if (false : Bool) then
              [(32 + symTabAdvCount [undefSym ("malloc")] [] ["libc"] false * 16) % MOD32,
               (32 + symTabAdvCount [undefSym ("malloc")] [] ["libc"] false * 16 + 12) % MOD32]
            else []) :=
  C3_symbol_table_names [undefSym ("malloc")] [] ["libc"] 32 false
    (by intro s hs _; rcases List.mem_singleton.mp hs with rfl; decide)

/-- Counterexample to claim C3 as stated: in a library build with no dynamic
symbols, no libc and no exports, the entry at index 3 (module_start) has name
0x20 + 12 = 0x2C, not offset_of_nid_table + (3 - 2) * 0x10 = 0x30: the
module_start name advances by the 12 bytes of the module_stop string, not by
0x10. -/
theorem C3_counterexample :
    ((writeSymbolTable [] [] ["libkernel"] 32 true).1.map (fun e => e.name)).getD 3 0 = 44
    ∧ (44 : Nat) ≠ 32 + (3 - 2) * 16 := by
  decide

/-- Witness for C2_nid_count: the concrete one-symbol input succeeds with one
entry, and the theorem reproduces that count. -/
theorem C2_nid_count_witness :
    writeNIDTable cSha1 [undefSym ("foo")] [] c2DemoDict c2DemoLmd c2DemoModules false
      = .ok ["AAAAAAAAAAA#C#C\x00"]
    ∧ (["AAAAAAAAAAA#C#C\x00"] : List String).length
        = [undefSym ("foo")].countP (fun s => s.sectionIdx == SHN_UNDEF)
          + (if c2DemoModules.contains ("libc") then 1 else 0)
          + (if (false : Bool) then ([] : List GoSym).countP exportedSym else 0) := by
  have h : writeNIDTable cSha1 [undefSym ("foo")] [] c2DemoDict c2DemoLmd c2DemoModules false
      = .ok ["AAAAAAAAAAA#C#C\x00"] := by decide
  exact ⟨h, C2_nid_count cSha1 [undefSym ("foo")] [] c2DemoDict c2DemoLmd
    c2DemoModules false ["AAAAAAAAAAA#C#C\x00"] h⟩

/-- Counterexample to claim C2 as stated: the symbol foo is defined by both
library A and library B, so the claimed count — one entry per attributing
library — is 2, but the code emits a single entry (it breaks at the first
defining library). -/
theorem C2_counterexample :
    (writeNIDTable cSha1 [undefSym ("foo")] [] c2DemoDict c2DemoLmd
        c2DemoModules false).map List.length = .ok 1
    ∧ claimC2Count [undefSym ("foo")] [] c2DemoDict c2DemoModules false = 2
    ∧ (1 : Nat) ≠ 2 := by
  decide

set_option maxRecDepth 8192 in
/-- Counterexample to claim C10 as stated: an auth-info of 498 hex digits
decodes to 249 bytes — at least 8, so the claimed precondition holds — yet
the returned signature has 0x200 bytes, not 0x100. -/
theorem C10_counterexample :
    (createSignature bigHexDemo 0).map List.length = some 512
    ∧ (512 : Nat) ≠ 256 := by
  constructor
  · decide
  · decide

/-- One Go insertion step permutes: the result holds x and the old list. -/
theorem goOrderedInsert_perm (less : α → α → Bool) (x : α) :
    ∀ l : List α, (goOrderedInsert less x l).Perm (x :: l)
  | [] => by simp [goOrderedInsert]
  | b :: l => by
    simp only [goOrderedInsert]
    by_cases h : less x b = true
    · simp [h]
    · simp only [h, if_false]
      exact ((goOrderedInsert_perm less x l).cons b).trans (List.Perm.swap x b l)

/-- One Go insertion step preserves sortedness (priorities never decreasing,
phrased as the later element never strictly less), for any asymmetric and
transitive comparison. -/
theorem goOrderedInsert_pairwise (less : α → α → Bool)
    (asym : ∀ a b, less a b = true → less b a = false)
    (tr : ∀ a b c, less a b = true → less b c = true → less a c = true)
    (x : α) :
    ∀ l : List α, l.Pairwise (fun a b => less b a = false) →
      (goOrderedInsert less x l).Pairwise (fun a b => less b a = false)
  | [], _ => by simp [goOrderedInsert]
  | b :: l, hp => by
    rcases List.pairwise_cons.mp hp with ⟨hb, hl⟩
    simp only [goOrderedInsert]
    by_cases h : less x b = true
    · rw [if_pos h]
      refine List.Pairwise.cons ?_ hp
      intro e he
      rcases List.mem_cons.mp he with rfl | hel
      · exact asym x e h
      · by_cases hex : less e x = true
        · have hcontra := tr e x b hex h
          rw [hb e hel] at hcontra
          cases hcontra
        · exact Bool.eq_false_iff.mpr hex
    · rw [if_neg h]
      refine List.Pairwise.cons ?_ (goOrderedInsert_pairwise less asym tr x l hl)
      intro e he
      rcases List.mem_cons.mp ((goOrderedInsert_perm less x l).mem_iff.mp he) with rfl | hel
      · exact Bool.eq_false_iff.mpr h
      · exact hb e hel

/-- The Go insertionSort loop permutes: folding the remaining elements into an
accumulator yields a permutation of accumulator plus remainder. -/
theorem goInsertionSortAux_perm (less : α → α → Bool) :
    ∀ (l acc : List α),
      (l.foldl (fun acc x => goOrderedInsert less x acc) acc).Perm (acc ++ l)
  | [], acc => by simp
  | x :: t, acc => by
    simp only [List.foldl_cons]
    refine (goInsertionSortAux_perm less t (goOrderedInsert less x acc)).trans ?_
    refine ((goOrderedInsert_perm less x acc).append_right t).trans ?_
    simpa using (List.perm_middle).symm

/-- Go's insertionSort permutes its input. -/
theorem goInsertionSort_perm (less : α → α → Bool) (l : List α) :
    (goInsertionSort less l).Perm l := by
  simpa [goInsertionSort] using goInsertionSortAux_perm less l []

/-- The Go insertionSort loop keeps the accumulator sorted. -/
theorem goInsertionSortAux_pairwise (less : α → α → Bool)
    (asym : ∀ a b, less a b = true → less b a = false)
    (tr : ∀ a b c, less a b = true → less b c = true → less a c = true) :
    ∀ (l acc : List α), acc.Pairwise (fun a b => less b a = false) →
      (l.foldl (fun acc x => goOrderedInsert less x acc) acc).Pairwise
        (fun a b => less b a = false)
  | [], _, h => by simpa using h
  | x :: t, acc, h => by
    simp only [List.foldl_cons]
    exact goInsertionSortAux_pairwise less asym tr t _
      (goOrderedInsert_pairwise less asym tr x acc h)

/-- Go's insertionSort sorts, for any asymmetric transitive comparison. -/
theorem goInsertionSort_pairwise (less : α → α → Bool)
    (asym : ∀ a b, less a b = true → less b a = false)
    (tr : ∀ a b c, less a b = true → less b c = true → less a c = true)
    (l : List α) :
    (goInsertionSort less l).Pairwise (fun a b => less b a = false) :=
  goInsertionSortAux_pairwise less asym tr l [] (by simp)

/-- The gap-6 ShellSort pass permutes: it only ever swaps two positions. -/
theorem shellPass6Go_perm [DecidableEq α] (less : α → α → Bool) :
    ∀ (rest window done : List α),
      (shellPass6Go less window rest done).Perm (done.reverse ++ window ++ rest)
  | [], window, done => by
    cases window <;> simp [shellPass6Go]
  | x :: rest, window, done => by
    cases window with
    | nil => simp [shellPass6Go]
    | cons w ws =>
      simp only [shellPass6Go]
      by_cases h : less x w = true
      · rw [if_pos h]
        refine (shellPass6Go_perm less rest (ws ++ [w]) (x :: done)).trans ?_
        rw [List.perm_iff_count]
        intro a
        simp only [List.count_append, List.count_cons, List.count_reverse,
          List.count_nil]
        ring
      · rw [if_neg h]
        refine (shellPass6Go_perm less rest (ws ++ [x]) (w :: done)).trans ?_
        rw [List.perm_iff_count]
        intro a
        simp only [List.count_append, List.count_cons, List.count_reverse,
          List.count_nil]
        ring

/-- The gap-6 ShellSort pass on a whole list permutes it. -/
theorem shellPass6_perm [DecidableEq α] (less : α → α → Bool) (l : List α) :
    (shellPass6 less l).Perm l := by
  have h := shellPass6Go_perm less (l.drop 6) (l.take 6) []
  simpa [shellPass6, List.take_append_drop] using h

/-- Go 1.17 sort.Sort on a short slice permutes its input. -/
theorem goSortLe12_perm [DecidableEq α] (less : α → α → Bool) (l : List α) :
    (goSortLe12 less l).Perm l :=
  (goInsertionSort_perm less (shellPass6 less l)).trans (shellPass6_perm less l)

/-- The programHeaderList comparison is asymmetric. -/
theorem phLess_asymm (p q : ProgHeader) (h : phLess p q = true) :
    phLess q p = false := by
  simp only [phLess, decide_eq_true_eq] at h
  simp only [phLess, decide_eq_false_iff_not]
  omega

/-- The programHeaderList comparison is transitive. -/
theorem phLess_trans (p q r : ProgHeader) (h1 : phLess p q = true)
    (h2 : phLess q r = true) : phLess p r = true := by
  simp only [phLess, decide_eq_true_eq] at h1 h2 ⊢
  omega

/-- Claim C5, amended.  The priority table does rank the header types exactly
as claimed — PT_LOAD (read-execute) first through SCE_DYNLIBDATA, with
unrecognized types (PT_NOTE here) forced to math.MaxInt32, last — and the
final table is a permutation of the pre-sort table ordered by never-decreasing
priority.  The stability half of the claim is dropped: sort.Sort (Go 1.17, at
the table sizes create-fself produces) runs a gap-6 ShellSort pass before
insertionSort, which can reorder equal-priority headers. -/
theorem C5_program_header_order :
    (getProgramHeaderPriority progHeaderTypeOrder PT_LOAD (PF_R ||| PF_X) = 0
     ∧ getProgramHeaderPriority progHeaderTypeOrder PT_SCE_RELRO PF_R = 1
     ∧ getProgramHeaderPriority progHeaderTypeOrder PT_LOAD (PF_R ||| PF_W) = 2
     ∧ getProgramHeaderPriority progHeaderTypeOrder PT_SCE_PROC_PARAM PF_R = 3
     ∧ getProgramHeaderPriority progHeaderTypeOrder PT_SCE_MODULE_PARAM PF_R = 4
     ∧ getProgramHeaderPriority progHeaderTypeOrder PT_DYNAMIC PF_R = 5
     ∧ getProgramHeaderPriority progHeaderTypeOrder PT_INTERP PF_R = 6
     ∧ getProgramHeaderPriority progHeaderTypeOrder PT_TLS PF_R = 7
     ∧ getProgramHeaderPriority progHeaderTypeOrder PT_GNU_EH_FRAME PF_R = 8
     ∧ getProgramHeaderPriority progHeaderTypeOrder PT_SCE_DYNLIBDATA PF_R = 9
     ∧ getProgramHeaderPriority progHeaderTypeOrder 4 PF_R = maxInt32)
    ∧ ∀ (inp : GPHInput) (l : List ProgHeader),
        GenerateProgramHeadersUnsorted inp = some l →
          GenerateProgramHeaders (goSortLe12 phLess) inp
              = some (goSortLe12 phLess l)
          ∧ (goSortLe12 phLess l).Perm l
          ∧ (goSortLe12 phLess l).Pairwise (fun a b => phLess b a = false) := by
  refine ⟨by decide, ?_⟩
  intro inp l h
  refine ⟨by simp [GenerateProgramHeaders, h], goSortLe12_perm phLess l,
    goInsertionSort_pairwise phLess phLess_asymm phLess_trans _⟩

/-- Witness for C5_program_header_order at the concrete demonstration input. -/
theorem C5_program_header_order_witness :
    GenerateProgramHeaders (goSortLe12 phLess) c5Input
        = some (goSortLe12 phLess c5Unsorted)
    ∧ (goSortLe12 phLess c5Unsorted).Perm c5Unsorted
    ∧ (goSortLe12 phLess c5Unsorted).Pairwise (fun a b => phLess b a = false) :=
  C5_program_header_order.2 c5Input c5Unsorted (by decide)

/-- Counterexample to claim C5 as stated: the demonstration input carries six
equal-priority PT_NOTE headers in input order 1..6 (identified by offset), yet
the emitted table lists them as 3, 4, 5, 6, 1, 2 — headers 1 and 3 have equal
priority (neither is less than the other) and their input order is not
retained, so the sort is not stable. -/
theorem C5_counterexample :
    (GenerateProgramHeaders (goSortLe12 phLess) c5Input).map
        (fun l => l.map (fun p => p.off))
      = some [4096, 8192, 12288, 3, 4, 5, 6, 1, 2]
    ∧ c5Input.progs.map (fun p => p.off) = [4096, 1, 2, 3, 4, 5, 6]
    ∧ phLess (noteHdr 1) (noteHdr 3) = false
    ∧ phLess (noteHdr 3) (noteHdr 1) = false := by
  refine ⟨?_, ?_, ?_, ?_⟩ <;> decide

end CreateFself
